import Mathlib

/-!
dbtogo: schema metadata enrichment and rendering helpers

A shallow embedding of `metadata.go` (`Code`, `Metadata.Create`, `Metadata.Output`) and of
the helpers of `dbtogo.go` (`capitalize`, `nounderscore`, `typenull`, `typepointer`, the
template selection of `render`).

Go strings are byte sequences, so a string is a list of byte values.  A `reflect.Type` is
observed by the code only through `Type.String()`, so a field carries that rendering.
A run-time panic is the result `none`.
-/

namespace Dbtogo

/-! ## Strings -/

/-- A Go string: its bytes, in order. -/
abbrev GoString := List Nat

/-- The bytes of an ASCII string literal of the source. -/
def lit (s : String) : GoString := s.data.map Char.toNat

/-- Go `strings.HasPrefix(s, prefix)`. -/
def HasPrefix (s pre : GoString) : Bool := pre.isPrefixOf s

/-- Go `strings.Join(elems, sep)`. -/
def Join : List GoString → GoString → GoString
  | [], _ => []
  | [a], _ => a
  | a :: b :: rest, sep => a ++ sep ++ Join (b :: rest) sep

/-- Go `strings.Repeat(s, count)` for a non-negative count. -/
def Repeat (s : GoString) : Nat → GoString
  | 0 => []
  | n + 1 => s ++ Repeat s n

/-- Scanning loop of `strings.Split` for a non-empty separator: `skip` counts the bytes of a
matched separator still to be passed over, `cur` holds the current piece reversed. -/
def splitAux (sep : GoString) : GoString → Nat → GoString → List GoString
  | [], _, cur => [cur.reverse]
  | _ :: rest, skip + 1, cur => splitAux sep rest skip cur
  | c :: rest, 0, cur =>
    if sep.isPrefixOf (c :: rest) then cur.reverse :: splitAux sep rest (sep.length - 1) []
    else splitAux sep rest 0 (c :: cur)

/-- Go `strings.Split(s, sep)` for a non-empty separator (the source only splits on "."). -/
def Split (s sep : GoString) : List GoString := splitAux sep s 0 []

/-- Scanning loop of `strings.Replace(s, old, new, -1)` for a non-empty `old`. -/
def replaceAux (old new : GoString) : GoString → Nat → GoString
  | [], _ => []
  | _ :: rest, skip + 1 => replaceAux old new rest skip
  | c :: rest, 0 =>
    if old.isPrefixOf (c :: rest) then new ++ replaceAux old new rest (old.length - 1)
    else c :: replaceAux old new rest 0

/-- Go `strings.Replace(s, old, new, -1)` (every non-overlapping occurrence) for a
non-empty `old`. -/
def ReplaceAll (s old new : GoString) : GoString := replaceAux old new s 0

/-- Go slice expression `s[:hi]` with a signed bound: panics (`none`) unless
`0 <= hi <= len(s)`. -/
def sliceTo (s : GoString) (hi : Int) : Option GoString :=
  if 0 ≤ hi ∧ hi ≤ (s.length : Int) then some (s.take hi.toNat) else none

/-- Go slice expression `s[lo:]` for `0 <= lo <= len(s)`. -/
def sliceFrom (s : GoString) (lo : Nat) : GoString := s.drop lo

/-- The text `%!s(MISSING)` that `fmt` prints for a verb without an operand. -/
def missingS : GoString := lit "%!s(MISSING)"

/-- Go `fmt.Sprintf(format, args...)` for formats whose only verb is `%s` and whose operands
are strings, as at every call site of `Code.Appendf` and `Metadata.Output`. -/
def Sprintf : GoString → List GoString → GoString
  | 37 :: 115 :: rest, a :: args => a ++ Sprintf rest args
  | 37 :: 115 :: rest, [] => missingS ++ Sprintf rest []
  | c :: rest, args => c :: Sprintf rest args
  | [], _ => []

/-! ## UTF-8 and case mapping (`unicode/utf8`, `unicode`) -/

/-- Go `utf8.RuneError`, U+FFFD. -/
def RuneError : Nat := 0xFFFD

/-- Whether `b` lies in the accept range `lo..hi` of a second byte. -/
def inRange (lo hi b : Nat) : Bool := decide (lo ≤ b) && decide (b ≤ hi)

/-- Continuation bytes `0x80..0xBF` (`locb`, `hicb`). -/
def isCont (b : Nat) : Bool := inRange 0x80 0xBF b

/-- Accept range of the second byte after lead byte `s0` (table `acceptRanges` selected by
`first[s0]`). -/
def acceptRange (s0 : Nat) : Nat × Nat :=
  if s0 = 0xE0 then (0xA0, 0xBF)
  else if s0 = 0xED then (0x80, 0x9F)
  else if s0 = 0xF0 then (0x90, 0xBF)
  else if s0 = 0xF4 then (0x80, 0x8F)
  else (0x80, 0xBF)

/-- Size entry of the table `first`: 1 for ASCII, 0 for an invalid lead byte, else the length
of the sequence the lead byte starts. -/
def leadSize (s0 : Nat) : Nat :=
  if s0 < 0x80 then 1
  else if s0 < 0xC2 then 0
  else if s0 < 0xE0 then 2
  else if s0 < 0xF0 then 3
  else if s0 < 0xF5 then 4
  else 0

/-- Go `utf8.DecodeRuneInString(s)`: the first rune and its width in bytes; an invalid or
short encoding gives `(RuneError, 1)`, the empty string `(RuneError, 0)`. -/
def DecodeRuneInString (s : GoString) : Nat × Nat :=
  match s with
  | [] => (RuneError, 0)
  | s0 :: t =>
    match leadSize s0 with
    | 1 => (s0, 1)
    | 2 =>
      match t with
      | s1 :: _ =>
        if inRange (acceptRange s0).1 (acceptRange s0).2 s1 then
          ((s0 % 32) * 64 + s1 % 64, 2)
        else (RuneError, 1)
      | _ => (RuneError, 1)
    | 3 =>
      match t with
      | s1 :: s2 :: _ =>
        if inRange (acceptRange s0).1 (acceptRange s0).2 s1 && isCont s2 then
          ((s0 % 16) * 4096 + (s1 % 64) * 64 + s2 % 64, 3)
        else (RuneError, 1)
      | _ => (RuneError, 1)
    | 4 =>
      match t with
      | s1 :: s2 :: s3 :: _ =>
        if inRange (acceptRange s0).1 (acceptRange s0).2 s1 && isCont s2 && isCont s3 then
          ((s0 % 8) * 262144 + (s1 % 64) * 4096 + (s2 % 64) * 64 + s3 % 64, 4)
        else (RuneError, 1)
      | _ => (RuneError, 1)
    | _ => (RuneError, 1)

/-- Go conversion `string(r)` of a rune (`utf8.AppendRune`): the UTF-8 encoding of `r`, or
that of U+FFFD when `r` is a surrogate or above U+10FFFF. -/
def runeToString (r : Nat) : GoString :=
  if r ≤ 0x7F then [r]
  else if r ≤ 0x7FF then [0xC0 + r / 64, 0x80 + r % 64]
  else if 0x10FFFF < r ∨ (0xD800 ≤ r ∧ r ≤ 0xDFFF) then [0xEF, 0xBF, 0xBD]
  else if r ≤ 0xFFFF then [0xE0 + r / 4096, 0x80 + (r / 64) % 64, 0x80 + r % 64]
  else [0xF0 + r / 262144, 0x80 + (r / 4096) % 64, 0x80 + (r / 64) % 64, 0x80 + r % 64]

/-- Go `unicode.ToUpper(r)`: the ASCII range is mapped in place; above `MaxASCII` the result
comes from the table `unicode.CaseRanges`, taken here as the parameter `caseTable`. -/
def ToUpper (caseTable : Nat → Nat) (r : Nat) : Nat :=
  if r ≤ 0x7F then
    if 0x61 ≤ r ∧ r ≤ 0x7A then r - 0x20 else r
  else caseTable r

/-- A Unicode scalar value: at most U+10FFFF and not a surrogate; these are the runes that
`string(r)` encodes as themselves. -/
def validRune (r : Nat) : Bool :=
  decide (r ≤ 0x10FFFF) && !(decide (0xD800 ≤ r) && decide (r ≤ 0xDFFF))

/-! ## Helpers of `dbtogo.go` -/

/-- Source `capitalize`: capitalize the first letter of the string. -/
def capitalize (caseTable : Nat → Nat) (s : GoString) : GoString :=
  if s = [] then []
  else
    let rn := DecodeRuneInString s
    runeToString (ToUpper caseTable rn.1) ++ sliceFrom s rn.2

/-- Source `nounderscore`: remove all underscores from the string. -/
def nounderscore (s : GoString) : GoString := ReplaceAll s (lit "_") (lit "")

/-- The four type names with a `sql.Null` wrapper in `database/sql` (the inner `case` of
`Create` and of `typenull`). -/
def isSqlNullable (t : GoString) : Bool :=
  decide (t = lit "bool") || decide (t = lit "float64") || decide (t = lit "int64")
    || decide (t = lit "string")

/-! ## Data model of `metadata.go` -/

/-- Source `Field`; `Typ` is the rendering `Type.String()` of the field's `reflect.Type`,
the only observation the code makes of it. -/
structure Field where
  Name : GoString
  CleanName : GoString
  Typ : GoString
deriving DecidableEq, Repr

/-- Source `Struct`. -/
structure Struct where
  Name : GoString
  CleanName : GoString
  Fields : List Field
deriving DecidableEq, Repr

/-- Source `Code`, a slice of strings. -/
abbrev Code := List GoString

/-- Source `Code.Append`. -/
def Code.Append (c : Code) (args : List GoString) : Code := c ++ args

/-- Source `Code.Appendf`. -/
def Code.Appendf (c : Code) (format : GoString) (args : List GoString) : Code :=
  c ++ [Sprintf format args]

/-- A Go `map[string]bool` in which every stored value is `true`: its keys, without
repetition, in the order they were first stored. -/
abbrev ImportSet := List GoString

/-- Map store `m[k] = true`. -/
def ImportSet.store (m : ImportSet) (k : GoString) : ImportSet :=
  if k ∈ m then m else m ++ [k]

/-- Source `Metadata`. -/
structure Metadata where
  Args : List GoString
  Package : GoString
  Structs : List Struct
  Imports : ImportSet
  InsertStmts : Code
  SelectStmts : Code
  StructCode : Code
deriving DecidableEq, Repr

/-- The command-line flags `*types` and `*sqlstruct` that `Create` reads. -/
structure Options where
  types : GoString
  sqlstruct : Bool
deriving DecidableEq, Repr

/-! ## `Metadata.Create` -/

/-- Lines 63-82 of `Create`: the type expression of a field and the import set after it.
`none` is the panic of `parts[0]` on an empty slice. -/
def mapType (caseTable : Nat → Nat) (types : GoString) (imports : ImportSet)
    (typ : GoString) : Option (GoString × ImportSet) :=
  if !HasPrefix typ (lit "[]") then
    if types = lit "null" then
      if isSqlNullable typ then
        some (lit "sql.Null" ++ capitalize caseTable typ, imports)
      else
        match Split typ (lit ".") with
        | p0 :: _ => some (lit "*" ++ typ, imports.store p0)
        | [] => none
    else if types = lit "pointer" then
      some (lit "*" ++ typ, imports)
    else some (typ, imports)
  else some (typ, imports)

/-- The variables the loop over `strct.Fields` updates. -/
structure FieldLoop where
  md : Metadata
  args : List GoString
  sqlArgs : List GoString
deriving DecidableEq, Repr

/-- Body of the loop over `strct.Fields` (lines 57-88). -/
def fieldStep (caseTable : Nat → Nat) (o : Options) (st : FieldLoop) (field : Field) :
    Option FieldLoop :=
  let tag := if o.sqlstruct then lit "`sql:\"" ++ field.Name ++ lit "\"`" else lit ""
  match mapType caseTable o.types st.md.Imports field.Typ with
  | none => none
  | some (typ, imports) =>
    some {
      md := { st.md with
        Imports := imports
        StructCode := st.md.StructCode.Appendf (lit "%s %s%s;") [field.CleanName, typ, tag] }
      args := st.args ++ [lit "&t." ++ field.CleanName]
      sqlArgs := st.sqlArgs ++ [field.CleanName] }

/-- Body of the loop over `md.Structs` (lines 51-107). -/
def structStep (caseTable : Nat → Nat) (o : Options) (md : Metadata) (strct : Struct) :
    Option Metadata :=
  let md1 := { md with
    StructCode := md.StructCode.Appendf (lit "type %s struct \x7b") [strct.CleanName] }
  match strct.Fields.foldlM (fieldStep caseTable o) ⟨md1, [], []⟩ with
  | none => none
  | some st =>
    let code2 := st.md.StructCode.Appendf (lit "\x7d;") []
    let code3 := code2.Appendf
      (lit "func (t *%s) Args() []interface\x7b\x7d \x7breturn []interface\x7b\x7d\x7b%s\x7d\x7d;")
      [strct.CleanName, Join st.args (lit ",")]
    let insertValues := Repeat (lit "?, ") st.sqlArgs.length
    match sliceTo insertValues ((insertValues.length : Int) - 2) with
    | none => none
    | some values =>
      some { st.md with
        StructCode := code3
        InsertStmts := st.md.InsertStmts.Appendf (lit "\"INSERT INTO %s (%s) VALUES (%s)\"")
          [strct.CleanName, Join st.sqlArgs (lit ","), values]
        SelectStmts := st.md.SelectStmts.Appendf (lit "\"SELECT %s FROM %s\"")
          [Join st.sqlArgs (lit ","), strct.CleanName] }

/-- Source `Metadata.Create`; `none` when the run panics. -/
def Create (caseTable : Nat → Nat) (o : Options) (md : Metadata) : Option Metadata :=
  let imports0 : ImportSet := []
  let md0 := { md with
    Imports := if o.types = lit "null" then imports0.store (lit "database/sql") else imports0 }
  md.Structs.foldlM (structStep caseTable o) md0

/-! ## Template helpers and template selection of `render` -/

/-- Template helper `typenull` of `render`. -/
def typenull (caseTable : Nat → Nat) (f : Field) : GoString :=
  let t := f.Typ
  if !HasPrefix t (lit "[]") then
    if isSqlNullable t then lit "sql.Null" ++ capitalize caseTable t
    else lit "*" ++ t
  else t

/-- Template helper `typepointer` of `render`. -/
def typepointer (f : Field) : GoString :=
  let t := f.Typ
  if !HasPrefix t (lit "[]") then lit "*" ++ t else t

/-- The name `tplName` that `render` passes to `ExecuteTemplate` (lines 135-151). -/
def renderTplName (file : GoString) : GoString :=
  if file = lit "" then lit "output" else file

/-! ## `Metadata.Output` and `filepath.Base` -/

/-- The loops of lines 124-126 and 130-132: one line per statement, keyed by the clean name of
`md.Structs[n]`; `none` is the panic of an index out of range. -/
def writeStmts (structs : List Struct) : Code → Nat → Option GoString
  | [], _ => some []
  | i :: rest, n =>
    match structs[n]? with
    | none => none
    | some s =>
      match writeStmts structs rest (n + 1) with
      | none => none
      | some tl => some (Sprintf (lit "\"%s\": %s,\n") [s.CleanName, i] ++ tl)

/-- The loop of lines 117-119 over the keys of `md.Imports`, visited in the order `order`. -/
def writeImports : List GoString → GoString
  | [] => []
  | k :: rest => Sprintf (lit "import \"%s\"\n") [k] ++ writeImports rest

/-- The orders in which a `range` over the map may visit its keys: Go leaves the iteration
order of a map unspecified, so every arrangement of the keys is possible. -/
def iterationOrders (m : ImportSet) : List (List GoString) := m.permutations

/-- Source `Metadata.Output`: the text written to `w` when the `range` over `md.Imports`
visits the keys in the order `order`; `none` when the run panics. -/
def Output (md : Metadata) (order : List GoString) : Option GoString :=
  let head := lit "// GENERATED BY dbtogo (github.com/kdar/dbtogo); DO NOT EDIT\n"
    ++ Sprintf (lit "// ---args: %s\n") [Join md.Args (lit " ")]
    ++ Sprintf (lit "package %s\n") [md.Package]
    ++ writeImports order
    ++ Sprintf (lit "type Arger interface \x7bArgs() []interface\x7b\x7d\x7d;") []
    ++ lit "var InsertStmts = map[string]string\x7b\n"
  match writeStmts md.Structs md.InsertStmts 0 with
  | none => none
  | some ins =>
    match writeStmts md.Structs md.SelectStmts 0 with
    | none => none
    | some sel =>
      some (head ++ ins ++ lit "\x7d\n" ++ lit "var SelectStmts = map[string]string\x7b\n"
        ++ sel ++ lit "\x7d\n" ++ Join md.StructCode (lit "\n"))

/-- Go `os.IsPathSeparator` on Unix. -/
def isPathSeparator (b : Nat) : Bool := b == 47

/-- Go `filepath.Base(path)` on Unix, the name under which `ParseFiles` registers the template
parsed from `path`: the last element of the path, trailing separators dropped. -/
def Base (path : GoString) : GoString :=
  if path = [] then lit "."
  else
    let stripped := path.reverse.dropWhile isPathSeparator
    let last := stripped.takeWhile (fun b => !isPathSeparator b)
    if last = [] then lit "/" else last.reverse

/-! ## Closed forms used to state what `Create` records -/

/-- The type expression `mapType` yields (its first component), as one expression. -/
def typeExpr (caseTable : Nat → Nat) (types typ : GoString) : GoString :=
  if HasPrefix typ (lit "[]") then typ
  else if types = lit "null" then
    if isSqlNullable typ then lit "sql.Null" ++ capitalize caseTable typ else lit "*" ++ typ
  else if types = lit "pointer" then lit "*" ++ typ
  else typ

/-- The import set `mapType` yields (its second component), as one expression. -/
def importsStep (types : GoString) (imports : ImportSet) (typ : GoString) : ImportSet :=
  if !HasPrefix typ (lit "[]") && decide (types = lit "null") && !isSqlNullable typ then
    imports.store ((Split typ (lit ".")).headD [])
  else imports

/-- The struct tag of line 60. -/
def fieldTag (o : Options) (f : Field) : GoString :=
  if o.sqlstruct then lit "`sql:\"" ++ (f.Name ++ lit "\"`") else []

/-- The declaration line `Create` appends for one field (line 84). -/
def fieldLine (caseTable : Nat → Nat) (o : Options) (f : Field) : GoString :=
  f.CleanName ++ (lit " " ++ (typeExpr caseTable o.types f.Typ ++ (fieldTag o f ++ lit ";")))

/-- The `Args` accessor line `Create` appends for one table (line 92). -/
def argsLine (s : Struct) : GoString :=
  lit "func (t *" ++ (s.CleanName ++
    (lit ") Args() []interface\x7b\x7d \x7breturn []interface\x7b\x7d\x7b" ++
      (Join (s.Fields.map (fun f => lit "&t." ++ f.CleanName)) (lit ",") ++ lit "\x7d\x7d;")))

/-- The lines `Create` appends to `StructCode` for one table. -/
def structLines (caseTable : Nat → Nat) (o : Options) (s : Struct) : Code :=
  [lit "type " ++ (s.CleanName ++ lit " struct \x7b")] ++ s.Fields.map (fieldLine caseTable o)
    ++ [lit "\x7d;", argsLine s]

/-- The entry `Create` appends to `InsertStmts` for a table with at least one field. -/
def insertStmt (s : Struct) : GoString :=
  lit "\"INSERT INTO " ++ (s.CleanName ++ (lit " (" ++
    (Join (s.Fields.map (fun f => f.CleanName)) (lit ",") ++ (lit ") VALUES (" ++
      (Join (List.replicate s.Fields.length (lit "?")) (lit ", ") ++ lit ")\"")))))

/-- The entry `Create` appends to `SelectStmts` for one table. -/
def selectStmt (s : Struct) : GoString :=
  lit "\"SELECT " ++ (Join (s.Fields.map (fun f => f.CleanName)) (lit ",") ++
    (lit " FROM " ++ (s.CleanName ++ lit "\"")))

/-- The import set at the start of the loop of `Create` (lines 45-49). -/
def importsInit (o : Options) : ImportSet :=
  if o.types = lit "null" then [lit "database/sql"] else []

/-- The import set after the fields of the given tables have been processed in order. -/
def importsOf (o : Options) (init : ImportSet) (ss : List Struct) : ImportSet :=
  ss.foldl (fun acc s => s.Fields.foldl (fun a f => importsStep o.types a f.Typ) acc) init

/-! ## Concrete inputs -/

/-- A field given by its raw name, clean name and type rendering. -/
def exField (n c t : String) : Field := ⟨lit n, lit c, lit t⟩

/-- A fresh `Metadata` over the given tables, as an introspector hands it to `Create`. -/
def exMd (ss : List Struct) : Metadata := ⟨[], lit "model", ss, [], [], [], []⟩

/-- Table `t` (clean name `T`) with columns id, name, email. -/
def exUsers : Struct := ⟨lit "t", lit "T",
  [exField "id" "Id" "int64", exField "name" "Name" "string", exField "email" "Email" "string"]⟩

/-- Table with no column. -/
def exEmpty : Struct := ⟨lit "empty", lit "Empty", []⟩

/-- Table with one `int32` column. -/
def exCounter : Struct := ⟨lit "counter", lit "Counter", [exField "n" "N" "int32"]⟩

/-- Table with one `time.Time` column. -/
def exEvent : Struct := ⟨lit "event", lit "Event", [exField "created" "Created" "time.Time"]⟩

/-- Table with one byte-slice column. -/
def exBlob : Struct := ⟨lit "blob", lit "Blob", [exField "data" "Data" "[]uint8"]⟩

/-- The options `types = bare`, no struct tags. -/
def optBare : Options := ⟨lit "bare", false⟩

/-- The options `types = null`, no struct tags. -/
def optNull : Options := ⟨lit "null", false⟩

/-- The options `types = pointer`, no struct tags. -/
def optPointer : Options := ⟨lit "pointer", false⟩

/-- A sample upper-case table above ASCII: the Latin-1 letters `à..þ` (except `÷`) map to
`À..Þ`, every other rune to itself. -/
def latin1Upper (r : Nat) : Nat :=
  if 0xE0 ≤ r ∧ r ≤ 0xFE ∧ r ≠ 0xF7 then r - 0x20 else r

/-! ## Command line of `cliAction` -/

/-- The loop of lines 188-193 of `cliAction`: every element of `os.Args` is appended to
`md.Args`, passed through `strconv.Quote` (the parameter `quote`) unless its index `i` is 0. -/
def appendArgs (quote : GoString → GoString) (args : List GoString) :
    List GoString → Nat → List GoString
  | [], _ => args
  | v :: rest, i => appendArgs quote (args ++ [if i ≠ 0 then quote v else v]) rest (i + 1)

/-- Go slice expression `xs[:hi]` on a slice of strings with a signed bound. -/
def sliceArgsTo (xs : List GoString) (hi : Int) : Option (List GoString) :=
  if 0 ≤ hi ∧ hi ≤ (xs.length : Int) then some (xs.take hi.toNat) else none

/-- The fields `Args` and `SafeArgs` of the metadata that `cliAction` hands to `render`
(`SafeArgs` is used by `dbtogo.go` and by the default template). -/
structure CliArgs where
  Args : List GoString
  SafeArgs : List GoString
deriving DecidableEq, Repr

/-- Lines 188-197 of `cliAction`: `args0` and `safe0` are the two fields as the introspector
left them, `osArgs` is `os.Args`, `present` is `c.Args().Present()` (a positional argument,
the DSN, follows the command); `none` is the panic of the slice expression. -/
def cliArgs (quote : GoString → GoString) (args0 safe0 osArgs : List GoString)
    (present : Bool) : Option CliArgs :=
  let args := appendArgs quote args0 osArgs 0
  if present then
    match sliceArgsTo args ((args.length : Int) - 1) with
    | none => none
    | some safe => some ⟨args, safe⟩
  else some ⟨args, safe0⟩

/-- The provenance comment of the default template, `// ---args: {{join .SafeArgs " "}}`. -/
def provenanceLine (safeArgs : List GoString) : GoString :=
  lit "// ---args: " ++ Join safeArgs (lit " ")

/-- A stand-in for `strconv.Quote` on strings without `"`, `\` or non-printable bytes: the
string between double quotes. -/
def quotePlain (s : GoString) : GoString := lit "\"" ++ s ++ lit "\""

/-! ## The built-in default template -/

/-- Body of the `range` in the template `columns` (line 37): the capitalized name, then a
comma when `lt $i (sub $len 1)`. -/
def tplColumnsLoop (caseTable : Nat → Nat) (len : Int) : List Field → Nat → GoString
  | [], _ => []
  | v :: rest, i =>
    capitalize caseTable v.Name ++ (if (i : Int) < len - 1 then lit "," else [])
      ++ tplColumnsLoop caseTable len rest (i + 1)

/-- Template `columns` (line 37). -/
def tplColumns (caseTable : Nat → Nat) (fields : List Field) : GoString :=
  tplColumnsLoop caseTable (fields.length : Int) fields 0

/-- Body of the `range` in the template `values` (line 38). -/
def tplValuesLoop (caseTable : Nat → Nat) (len : Int) : List Field → Nat → GoString
  | [], _ => []
  | v :: rest, i =>
    lit ":" ++ capitalize caseTable v.Name ++ (if (i : Int) < len - 1 then lit "," else [])
      ++ tplValuesLoop caseTable len rest (i + 1)

/-- Template `values` (line 38). -/
def tplValues (caseTable : Nat → Nat) (fields : List Field) : GoString :=
  tplValuesLoop caseTable (fields.length : Int) fields 0

/-- Body of the first `range` over `.Tables` (lines 43-44): one entry of the map. -/
def tplInsertEntry (caseTable : Nat → Nat) (table : Struct) : GoString :=
  lit "  \"" ++ table.Name ++ lit "\": \"INSERT INTO " ++ table.Name ++ lit " ("
    ++ tplColumns caseTable table.Fields ++ lit ") VALUES (" ++ tplValues caseTable table.Fields
    ++ lit ")\",\n"

/-- Body of the `range` over `$table.Fields` (lines 48-49): one member of the struct. -/
def tplFieldDecl (caseTable : Nat → Nat) (field : Field) : GoString :=
  lit "  " ++ capitalize caseTable field.Name ++ lit " " ++ typenull caseTable field ++ lit "\n"

/-- Body of the second `range` over `.Tables` (lines 46-50): one struct declaration. -/
def tplStructDecl (caseTable : Nat → Nat) (table : Struct) : GoString :=
  lit "\ntype " ++ table.Name ++ lit " struct \x7b\n"
    ++ (table.Fields.map (tplFieldDecl caseTable)).flatten ++ lit "\x7d\n"

/-- The text the template `default_template` (lines 32-50) produces for the data
`.Package`, `.SafeArgs`, `.Tables` (the two `define` blocks produce no text where they
stand). -/
def renderDefault (caseTable : Nat → Nat) (package : GoString) (safeArgs : List GoString)
    (tables : List Struct) : GoString :=
  lit "package " ++ package
    ++ lit "\n\n// GENERATED BY dbtogo (github.com/kdar/dbtogo); DO NOT EDIT\n"
    ++ provenanceLine safeArgs ++ lit "\n\n" ++ lit "\n"
    ++ lit "\n\nimport \"database/sql\"\n\nvar InsertStmts = map[string]string\x7b\n"
    ++ (tables.map (tplInsertEntry caseTable)).flatten ++ lit "\x7d\n\n"
    ++ (tables.map (tplStructDecl caseTable)).flatten

/-- Table `t` with raw names only, as the default template reads it. -/
def exRaw : Struct := ⟨lit "t", lit "",
  [exField "id" "" "int64", exField "data" "" "[]uint8", exField "at" "" "time.Time"]⟩

/-! ## Lemmas on the string library -/

theorem Sprintf_field (a b c : GoString) :
    Sprintf (lit "%s %s%s;") [a, b, c] = a ++ (lit " " ++ (b ++ (c ++ lit ";"))) := rfl

theorem Sprintf_type (a : GoString) :
    Sprintf (lit "type %s struct \x7b") [a] = lit "type " ++ (a ++ lit " struct \x7b") := rfl

theorem Sprintf_close : Sprintf (lit "\x7d;") [] = lit "\x7d;" := rfl

theorem Sprintf_args (a b : GoString) :
    Sprintf
      (lit "func (t *%s) Args() []interface\x7b\x7d \x7breturn []interface\x7b\x7d\x7b%s\x7d\x7d;")
      [a, b]
    = lit "func (t *" ++ (a ++
        (lit ") Args() []interface\x7b\x7d \x7breturn []interface\x7b\x7d\x7b" ++
          (b ++ lit "\x7d\x7d;"))) := rfl

theorem Sprintf_insert (a b c : GoString) :
    Sprintf (lit "\"INSERT INTO %s (%s) VALUES (%s)\"") [a, b, c]
    = lit "\"INSERT INTO " ++ (a ++ (lit " (" ++ (b ++ (lit ") VALUES (" ++ (c ++ lit ")\""))))) :=
  rfl

theorem Sprintf_select (a b : GoString) :
    Sprintf (lit "\"SELECT %s FROM %s\"") [a, b]
    = lit "\"SELECT " ++ (a ++ (lit " FROM " ++ (b ++ lit "\""))) := rfl

theorem splitAux_ne_nil (sep : GoString) (s : GoString) (k : Nat) (cur : GoString) :
    splitAux sep s k cur ≠ [] := by
  induction s generalizing k cur with
  | nil => simp [splitAux]
  | cons c rest ih =>
    cases k with
    | zero =>
      simp only [splitAux]
      split
      · simp
      · exact ih _ _
    | succ k => simpa [splitAux] using ih k cur

theorem Repeat_length (s : GoString) (n : Nat) : (Repeat s n).length = n * s.length := by
  induction n with
  | zero => simp [Repeat]
  | succ n ih => simp [Repeat, ih, Nat.succ_mul, Nat.add_comm]

theorem Repeat_q_succ (n : Nat) :
    Repeat (lit "?, ") (n + 1)
      = Join (List.replicate (n + 1) (lit "?")) (lit ", ") ++ lit ", " := by
  induction n with
  | zero => rfl
  | succ n ih =>
    rw [Repeat, ih]
    simp only [List.replicate_succ, Join]
    rfl

theorem sliceTo_insertValues (n : Nat) :
    sliceTo (Repeat (lit "?, ") (n + 1)) (((Repeat (lit "?, ") (n + 1)).length : Int) - 2)
      = some (Join (List.replicate (n + 1) (lit "?")) (lit ", ")) := by
  have hlen : (lit ", ").length = 2 := rfl
  rw [Repeat_q_succ]
  unfold sliceTo
  rw [if_pos]
  · congr 1
    have : ((((Join (List.replicate (n + 1) (lit "?")) (lit ", ") ++ lit ", ").length : Nat) : Int)
        - 2).toNat = (Join (List.replicate (n + 1) (lit "?")) (lit ", ")).length := by
      rw [List.length_append, hlen]; omega
    rw [this, List.take_left]
  · rw [List.length_append, hlen]; omega

theorem sliceTo_insertValues_zero :
    sliceTo (Repeat (lit "?, ") 0) (((Repeat (lit "?, ") 0).length : Int) - 2) = none := by
  decide

/-! ## Closed form of `Create` -/

theorem mapType_eq (ct : Nat → Nat) (types : GoString) (imports : ImportSet) (typ : GoString) :
    mapType ct types imports typ
      = some (typeExpr ct types typ, importsStep types imports typ) := by
  unfold mapType typeExpr importsStep
  cases hp : HasPrefix typ (lit "[]") with
  | true => simp
  | false =>
    by_cases hn : types = lit "null"
    · cases hq : isSqlNullable typ with
      | true => simp [hn]
      | false =>
        cases hs : Split typ (lit ".") with
        | nil => exact absurd hs (splitAux_ne_nil _ _ _ _)
        | cons p0 rest => simp [hn]
    · by_cases hpt : types = lit "pointer"
      · simp [hn, hpt.symm ▸ hn, hpt]
      · simp [hn, hpt]

theorem fieldStep_eq (ct : Nat → Nat) (o : Options) (st : FieldLoop) (f : Field) :
    fieldStep ct o st f = some
      { md := { st.md with
          Imports := importsStep o.types st.md.Imports f.Typ
          StructCode := st.md.StructCode ++ [fieldLine ct o f] }
        args := st.args ++ [lit "&t." ++ f.CleanName]
        sqlArgs := st.sqlArgs ++ [f.CleanName] } := by
  unfold fieldStep
  rw [mapType_eq]
  simp only [Code.Appendf, Sprintf_field, fieldLine, fieldTag]
  have hnil : lit "" = [] := rfl
  cases o.sqlstruct <;> simp [hnil]

theorem fieldLoop_eq (ct : Nat → Nat) (o : Options) (fs : List Field) (st : FieldLoop) :
    fs.foldlM (fieldStep ct o) st = some
      { md := { st.md with
          Imports := fs.foldl (fun a f => importsStep o.types a f.Typ) st.md.Imports
          StructCode := st.md.StructCode ++ fs.map (fieldLine ct o) }
        args := st.args ++ fs.map (fun f => lit "&t." ++ f.CleanName)
        sqlArgs := st.sqlArgs ++ fs.map (fun f => f.CleanName) } := by
  induction fs generalizing st with
  | nil => simp
  | cons f fs ih =>
    rw [List.foldlM_cons, fieldStep_eq]
    simp only [Option.bind_eq_bind, Option.some_bind]
    rw [ih]
    simp

/-- What one pass of the loop over `md.Structs` leaves for a table with at least one field. -/
theorem structStep_eq (ct : Nat → Nat) (o : Options) (md : Metadata) (s : Struct)
    (h : s.Fields ≠ []) :
    structStep ct o md s = some
      { md with
        Imports := s.Fields.foldl (fun a f => importsStep o.types a f.Typ) md.Imports
        StructCode := md.StructCode ++ structLines ct o s
        InsertStmts := md.InsertStmts ++ [insertStmt s]
        SelectStmts := md.SelectStmts ++ [selectStmt s] } := by
  unfold structStep
  simp only [fieldLoop_eq]
  obtain ⟨n, hn⟩ : ∃ n, s.Fields.length = n + 1 := by
    cases hf : s.Fields with
    | nil => exact absurd hf h
    | cons a l => exact ⟨l.length, by simp⟩
  simp only [List.nil_append, List.length_map, hn, sliceTo_insertValues, Code.Appendf,
    Sprintf_type, Sprintf_close, Sprintf_args, Sprintf_insert, Sprintf_select, structLines,
    argsLine, insertStmt, selectStmt, List.append_assoc, List.singleton_append]

/-- A table without fields makes the pass panic at the slice of line 100. -/
theorem structStep_nil (ct : Nat → Nat) (o : Options) (md : Metadata) (s : Struct)
    (h : s.Fields = []) : structStep ct o md s = none := by
  unfold structStep
  simp only [fieldLoop_eq, h, List.map_nil, List.append_nil, List.length_nil,
    sliceTo_insertValues_zero]

theorem structLoop_eq (ct : Nat → Nat) (o : Options) (ss : List Struct) (md : Metadata)
    (h : ∀ s ∈ ss, s.Fields ≠ []) :
    ss.foldlM (structStep ct o) md = some
      { md with
        Imports := importsOf o md.Imports ss
        StructCode := md.StructCode ++ (ss.map (structLines ct o)).flatten
        InsertStmts := md.InsertStmts ++ ss.map insertStmt
        SelectStmts := md.SelectStmts ++ ss.map selectStmt } := by
  induction ss generalizing md with
  | nil => simp [importsOf]
  | cons s ss ih =>
    rw [List.foldlM_cons, structStep_eq ct o md s (h s (List.mem_cons_self _ _))]
    simp only [Option.bind_eq_bind, Option.some_bind]
    rw [ih _ (fun t ht => h t (List.mem_cons_of_mem _ ht))]
    simp [importsOf]

theorem importsInit_eq (o : Options) :
    (if o.types = lit "null" then ImportSet.store [] (lit "database/sql") else [])
      = importsInit o := by
  unfold importsInit ImportSet.store
  simp

/-- Closed form of `Create` on tables that all have at least one field. -/
theorem Create_eq (ct : Nat → Nat) (o : Options) (md : Metadata)
    (h : ∀ s ∈ md.Structs, s.Fields ≠ []) :
    Create ct o md = some
      { md with
        Imports := importsOf o (importsInit o) md.Structs
        StructCode := md.StructCode ++ (md.Structs.map (structLines ct o)).flatten
        InsertStmts := md.InsertStmts ++ md.Structs.map insertStmt
        SelectStmts := md.SelectStmts ++ md.Structs.map selectStmt } := by
  unfold Create
  simp only [importsInit_eq]
  rw [structLoop_eq ct o md.Structs _ h]

/-- `Create` panics as soon as a table has no field. -/
theorem structLoop_none (ct : Nat → Nat) (o : Options) (ss : List Struct) (md : Metadata)
    (h : ∃ s ∈ ss, s.Fields = []) : ss.foldlM (structStep ct o) md = none := by
  induction ss generalizing md with
  | nil => simp at h
  | cons s ss ih =>
    rw [List.foldlM_cons]
    by_cases hs : s.Fields = []
    · rw [structStep_nil ct o md s hs]; rfl
    · rw [structStep_eq ct o md s hs]
      simp only [Option.bind_eq_bind, Option.some_bind]
      apply ih
      obtain ⟨t, ht, hte⟩ := h
      rcases List.mem_cons.mp ht with rfl | ht
      · exact absurd hte hs
      · exact ⟨t, ht, hte⟩

/-! ## C1: text of the INSERT statement -/

/-- C1 (as stated, refuted): for the table `T` with fields `Id, Name, Email` the recorded
INSERT text is `INSERT INTO T (Id,Name,Email) VALUES (?, ?, ?)`, the placeholders separated
by a comma and a space, not the text `... VALUES (?,?,?)` of the claim. -/
theorem C1_counterexample :
    (Create (fun r => r) optBare (exMd [exUsers])).map (fun m => m.InsertStmts)
        = some [lit "\"INSERT INTO T (Id,Name,Email) VALUES (?, ?, ?)\""]
      ∧ (Create (fun r => r) optBare (exMd [exUsers])).map (fun m => m.InsertStmts)
        ≠ some [lit "\"INSERT INTO T (Id,Name,Email) VALUES (?,?,?)\""] := by
  decide

/-- C1 (amended): when every table has at least one field, `Create` returns and appends to
`InsertStmts`, table by table, the text `"INSERT INTO <T> (<c1>,...,<cn>) VALUES (<v>)"` where
the column list is the clean names joined by `,` and `<v>` is n placeholders `?` joined by
`, ` (comma and space, no trailing separator); for clean names `Id, Name, Email` the text is
`"INSERT INTO <T> (Id,Name,Email) VALUES (?, ?, ?)"`. -/
theorem C1_insert_text (ct : Nat → Nat) (o : Options) (md : Metadata)
    (h : ∀ s ∈ md.Structs, s.Fields ≠ []) :
    (∃ md', Create ct o md = some md' ∧
      md'.InsertStmts = md.InsertStmts ++ md.Structs.map insertStmt)
    ∧ (∀ s : Struct, insertStmt s =
        lit "\"INSERT INTO " ++ (s.CleanName ++ (lit " (" ++
          (Join (s.Fields.map (fun f => f.CleanName)) (lit ",") ++ (lit ") VALUES (" ++
            (Join (List.replicate s.Fields.length (lit "?")) (lit ", ") ++ lit ")\""))))))
    ∧ (∀ s : Struct, s.Fields.map (fun f => f.CleanName) = [lit "Id", lit "Name", lit "Email"] →
        insertStmt s
          = lit "\"INSERT INTO " ++ (s.CleanName ++ lit " (Id,Name,Email) VALUES (?, ?, ?)\"")) := by
  refine ⟨⟨_, Create_eq ct o md h, rfl⟩, fun _ => rfl, ?_⟩
  intro s hs
  have hl : s.Fields.length = 3 := by
    have := congrArg List.length hs
    simpa using this
  unfold insertStmt
  rw [hs, hl]
  rfl

/-- C1 witness: the amended statement at the table `T` with fields `Id, Name, Email`. -/
theorem C1_insert_text_witness :
    (∃ md', Create (fun r => r) optBare (exMd [exUsers]) = some md' ∧
      md'.InsertStmts = (exMd [exUsers]).InsertStmts ++ (exMd [exUsers]).Structs.map insertStmt)
    ∧ insertStmt exUsers = lit "\"INSERT INTO T (Id,Name,Email) VALUES (?, ?, ?)\"" :=
  have h := C1_insert_text (fun r => r) optBare (exMd [exUsers]) (by decide)
  ⟨h.1, (h.2.2 exUsers (by decide)).trans (by decide)⟩

/-! ## C2: a table without fields -/

/-- C2 (code at the failing input): on a `Metadata` that contains a table with zero fields
`Create` does not complete: `insertValues` is the empty string and the slice
`insertValues[:len(insertValues)-2]` of line 100 is out of range, so no INSERT or SELECT
statement is recorded for that table. -/
theorem C2_zero_fields_panics (ct : Nat → Nat) (o : Options) (md : Metadata)
    (h : ∃ s ∈ md.Structs, s.Fields = []) : Create ct o md = none := by
  unfold Create
  exact structLoop_none ct o md.Structs _ h

/-- C2 witness: the single table `Empty` without fields. -/
theorem C2_zero_fields_panics_witness :
    Create (fun r => r) optBare (exMd [exEmpty]) = none :=
  C2_zero_fields_panics (fun r => r) optBare (exMd [exEmpty]) ⟨exEmpty, by decide, by decide⟩

/-! ## C3, C4: type expressions -/

theorem capitalize_bool (ct : Nat → Nat) : capitalize ct (lit "bool") = lit "Bool" := rfl

theorem capitalize_float64 (ct : Nat → Nat) : capitalize ct (lit "float64") = lit "Float64" :=
  rfl

theorem capitalize_int64 (ct : Nat → Nat) : capitalize ct (lit "int64") = lit "Int64" := rfl

theorem capitalize_string (ct : Nat → Nat) : capitalize ct (lit "string") = lit "String" := rfl

/-- The line the field loop appends, in terms of the closed form of the type expression. -/
theorem fieldStep_code (ct : Nat → Nat) (o : Options) (st : FieldLoop) (f : Field) :
    (fieldStep ct o st f).map (fun r => r.md.StructCode)
      = some (st.md.StructCode ++
          [f.CleanName ++ (lit " " ++ (typeExpr ct o.types f.Typ ++ (fieldTag o f ++ lit ";")))]) := by
  rw [fieldStep_eq]
  rfl

/-- C3: for a field whose type is one of `bool`, `float64`, `int64`, `string`, the declaration
line `Create` appends carries the type itself under a bare policy (any `types` other than
`null` and `pointer`), `sql.Null` followed by the capitalized type under `null`
(`sql.NullBool`, `sql.NullFloat64`, `sql.NullInt64`, `sql.NullString`) and `*` followed by the
type under `pointer`; the three expressions are pairwise distinct. -/
theorem C3_primitive_types (ct : Nat → Nat) (sq : Bool) (st : FieldLoop) (f : Field)
    (bare : GoString)
    (ht : f.Typ ∈ [lit "bool", lit "float64", lit "int64", lit "string"])
    (hb : bare ≠ lit "null" ∧ bare ≠ lit "pointer") :
    (fieldStep ct ⟨bare, sq⟩ st f).map (fun r => r.md.StructCode)
        = some (st.md.StructCode ++
            [f.CleanName ++ (lit " " ++ (f.Typ ++ (fieldTag ⟨bare, sq⟩ f ++ lit ";")))])
    ∧ (fieldStep ct ⟨lit "null", sq⟩ st f).map (fun r => r.md.StructCode)
        = some (st.md.StructCode ++
            [f.CleanName ++ (lit " " ++ ((lit "sql.Null" ++ capitalize ct f.Typ) ++
              (fieldTag ⟨lit "null", sq⟩ f ++ lit ";")))])
    ∧ (fieldStep ct ⟨lit "pointer", sq⟩ st f).map (fun r => r.md.StructCode)
        = some (st.md.StructCode ++
            [f.CleanName ++ (lit " " ++ ((lit "*" ++ f.Typ) ++
              (fieldTag ⟨lit "pointer", sq⟩ f ++ lit ";")))])
    ∧ (f.Typ = lit "bool" → lit "sql.Null" ++ capitalize ct f.Typ = lit "sql.NullBool")
    ∧ (f.Typ = lit "float64" → lit "sql.Null" ++ capitalize ct f.Typ = lit "sql.NullFloat64")
    ∧ (f.Typ = lit "int64" → lit "sql.Null" ++ capitalize ct f.Typ = lit "sql.NullInt64"
        ∧ lit "*" ++ f.Typ = lit "*int64")
    ∧ (f.Typ = lit "string" → lit "sql.Null" ++ capitalize ct f.Typ = lit "sql.NullString")
    ∧ f.Typ ≠ lit "sql.Null" ++ capitalize ct f.Typ
    ∧ f.Typ ≠ lit "*" ++ f.Typ
    ∧ lit "sql.Null" ++ capitalize ct f.Typ ≠ lit "*" ++ f.Typ := by
  have hnp : lit "pointer" ≠ lit "null" := by decide
  have key : HasPrefix f.Typ (lit "[]") = false ∧ isSqlNullable f.Typ = true
      ∧ (f.Typ = lit "bool" → lit "sql.Null" ++ capitalize ct f.Typ = lit "sql.NullBool")
      ∧ (f.Typ = lit "float64" → lit "sql.Null" ++ capitalize ct f.Typ = lit "sql.NullFloat64")
      ∧ (f.Typ = lit "int64" → lit "sql.Null" ++ capitalize ct f.Typ = lit "sql.NullInt64"
          ∧ lit "*" ++ f.Typ = lit "*int64")
      ∧ (f.Typ = lit "string" → lit "sql.Null" ++ capitalize ct f.Typ = lit "sql.NullString")
      ∧ f.Typ ≠ lit "sql.Null" ++ capitalize ct f.Typ
      ∧ f.Typ ≠ lit "*" ++ f.Typ
      ∧ lit "sql.Null" ++ capitalize ct f.Typ ≠ lit "*" ++ f.Typ := by
    simp only [List.mem_cons, List.mem_singleton, List.not_mem_nil, or_false] at ht
    rcases ht with h | h | h | h <;> rw [h]
    · rw [capitalize_bool]; decide
    · rw [capitalize_float64]; decide
    · rw [capitalize_int64]; decide
    · rw [capitalize_string]; decide
  obtain ⟨hp, hq, rest⟩ := key
  refine ⟨?_, ?_, ?_, rest⟩
  · rw [fieldStep_code]; simp [typeExpr, hp, hb.1, hb.2]
  · rw [fieldStep_code]; simp [typeExpr, hp, hq]
  · rw [fieldStep_code]; simp [typeExpr, hp, hnp]

/-- C3 witness: an `int64` column renders as `int64`, `sql.NullInt64` and `*int64`. -/
theorem C3_primitive_types_witness :
    (fieldStep (fun r => r) optBare ⟨exMd [], [], []⟩ (exField "id" "Id" "int64")).map
        (fun r => r.md.StructCode) = some [lit "Id int64;"]
    ∧ (fieldStep (fun r => r) optNull ⟨exMd [], [], []⟩ (exField "id" "Id" "int64")).map
        (fun r => r.md.StructCode) = some [lit "Id sql.NullInt64;"]
    ∧ (fieldStep (fun r => r) optPointer ⟨exMd [], [], []⟩ (exField "id" "Id" "int64")).map
        (fun r => r.md.StructCode) = some [lit "Id *int64;"] :=
  have h := C3_primitive_types (fun r => r) false ⟨exMd [], [], []⟩ (exField "id" "Id" "int64")
    (lit "bare") (by decide) (by decide)
  ⟨h.1.trans (by decide), h.2.1.trans (by decide), h.2.2.1.trans (by decide)⟩

/-- C4: for a field whose type rendering begins with `[]`, the declaration line `Create`
appends carries that rendering unchanged whatever the policy (`bare`, `null`, `pointer` or
any other value of `types`), no import is registered for it, and the template helpers
`typenull` and `typepointer` return the rendering unchanged. -/
theorem C4_array_exempt (ct : Nat → Nat) (o : Options) (st : FieldLoop) (f : Field)
    (h : HasPrefix f.Typ (lit "[]") = true) :
    (fieldStep ct o st f).map (fun r => r.md.StructCode)
        = some (st.md.StructCode ++
            [f.CleanName ++ (lit " " ++ (f.Typ ++ (fieldTag o f ++ lit ";")))])
    ∧ (fieldStep ct o st f).map (fun r => r.md.Imports) = some st.md.Imports
    ∧ mapType ct o.types st.md.Imports f.Typ = some (f.Typ, st.md.Imports)
    ∧ typenull ct f = f.Typ
    ∧ typepointer f = f.Typ := by
  refine ⟨?_, ?_, ?_, ?_, ?_⟩
  · rw [fieldStep_code]; simp [typeExpr, h]
  · rw [fieldStep_eq]; simp [importsStep, h]
  · rw [mapType_eq]; simp [typeExpr, importsStep, h]
  · simp [typenull, h]
  · simp [typepointer, h]

/-- C4 witness: a `[]uint8` column under the three policies and the two helpers. -/
theorem C4_array_exempt_witness :
    (fieldStep (fun r => r) optBare ⟨exMd [], [], []⟩ (exField "data" "Data" "[]uint8")).map
        (fun r => r.md.StructCode) = some [lit "Data []uint8;"]
    ∧ (fieldStep (fun r => r) optNull ⟨exMd [], [], []⟩ (exField "data" "Data" "[]uint8")).map
        (fun r => r.md.StructCode) = some [lit "Data []uint8;"]
    ∧ (fieldStep (fun r => r) optPointer ⟨exMd [], [], []⟩ (exField "data" "Data" "[]uint8")).map
        (fun r => r.md.StructCode) = some [lit "Data []uint8;"]
    ∧ typenull (fun r => r) (exField "data" "Data" "[]uint8") = lit "[]uint8"
    ∧ typepointer (exField "data" "Data" "[]uint8") = lit "[]uint8" :=
  have hb := C4_array_exempt (fun r => r) optBare ⟨exMd [], [], []⟩
    (exField "data" "Data" "[]uint8") (by decide)
  have hn := C4_array_exempt (fun r => r) optNull ⟨exMd [], [], []⟩
    (exField "data" "Data" "[]uint8") (by decide)
  have hp := C4_array_exempt (fun r => r) optPointer ⟨exMd [], [], []⟩
    (exField "data" "Data" "[]uint8") (by decide)
  ⟨hb.1.trans (by decide), hn.1.trans (by decide), hp.1.trans (by decide), hb.2.2.2.1,
    hb.2.2.2.2⟩

/-! ## C5: order of tables and fields -/

theorem splitAux_byte_end (c : Nat) (a cur : GoString) (h : c ∉ a) :
    splitAux [c] a 0 cur = [cur.reverse ++ a] := by
  induction a generalizing cur with
  | nil => simp [splitAux]
  | cons x a ih =>
    have hx : c ≠ x := fun e => h (e ▸ List.mem_cons_self _ _)
    have ha : c ∉ a := fun e => h (List.mem_cons_of_mem _ e)
    simp [splitAux, List.isPrefixOf, hx, ih _ ha]

theorem splitAux_byte_sep (c : Nat) (a rest cur : GoString) (h : c ∉ a) :
    splitAux [c] (a ++ c :: rest) 0 cur = (cur.reverse ++ a) :: splitAux [c] rest 0 [] := by
  induction a generalizing cur with
  | nil => simp [splitAux, List.isPrefixOf]
  | cons x a ih =>
    have hx : c ≠ x := fun e => h (e ▸ List.mem_cons_self _ _)
    have ha : c ∉ a := fun e => h (List.mem_cons_of_mem _ e)
    simp [splitAux, List.isPrefixOf, hx, ih _ ha]

/-- Splitting a joined list on a one-byte separator that occurs in no element gives the
elements back. -/
theorem Split_Join_byte (c : Nat) (xs : List GoString) (hne : xs ≠ [])
    (h : ∀ x ∈ xs, c ∉ x) : Split (Join xs [c]) [c] = xs := by
  induction xs with
  | nil => exact absurd rfl hne
  | cons a xs ih =>
    cases xs with
    | nil =>
      simp only [Join, Split]
      rw [splitAux_byte_end c a [] (h a (List.mem_cons_self _ _))]
      simp
    | cons b rest =>
      have ha : c ∉ a := h a (List.mem_cons_self _ _)
      have hrest : ∀ x ∈ b :: rest, c ∉ x := fun x hx => h x (List.mem_cons_of_mem _ hx)
      have ih2 := ih (by simp) hrest
      simp only [Split] at ih2
      simp only [Join, Split, List.append_assoc, List.singleton_append]
      rw [splitAux_byte_sep c a _ [] ha, ih2]
      simp

/-- C5: on a `Metadata` with empty statement lists whose tables all have at least one field,
`Create` returns, leaves `Structs` as it was, and records exactly one INSERT and one SELECT
entry per table in table order (entry k is built from table k); within a table the column
list of the INSERT, that of the SELECT and the `&t.<CleanName>` references of the `Args`
accessor are the fields' clean names in field order, joined by `,`, so that splitting a column
list at the commas gives back the list of clean names (when no clean name holds a comma). -/
theorem C5_order_preserved (ct : Nat → Nat) (o : Options) (md : Metadata)
    (hI : md.InsertStmts = []) (hS : md.SelectStmts = [])
    (h : ∀ s ∈ md.Structs, s.Fields ≠ []) :
    (∃ md', Create ct o md = some md'
      ∧ md'.Structs = md.Structs
      ∧ md'.InsertStmts = md.Structs.map insertStmt
      ∧ md'.SelectStmts = md.Structs.map selectStmt
      ∧ (∀ k : Nat, md'.InsertStmts[k]? = (md.Structs[k]?).map insertStmt)
      ∧ (∀ k : Nat, md'.SelectStmts[k]? = (md.Structs[k]?).map selectStmt)
      ∧ md'.StructCode = md.StructCode ++ (md.Structs.map (structLines ct o)).flatten)
    ∧ (∀ s : Struct, insertStmt s =
        lit "\"INSERT INTO " ++ (s.CleanName ++ (lit " (" ++
          (Join (s.Fields.map (fun f => f.CleanName)) (lit ",") ++ (lit ") VALUES (" ++
            (Join (List.replicate s.Fields.length (lit "?")) (lit ", ") ++ lit ")\""))))))
    ∧ (∀ s : Struct, selectStmt s =
        lit "\"SELECT " ++ (Join (s.Fields.map (fun f => f.CleanName)) (lit ",") ++
          (lit " FROM " ++ (s.CleanName ++ lit "\""))))
    ∧ (∀ s : Struct, structLines ct o s =
        [lit "type " ++ (s.CleanName ++ lit " struct \x7b")]
          ++ s.Fields.map (fieldLine ct o)
          ++ [lit "\x7d;",
              lit "func (t *" ++ (s.CleanName ++
                (lit ") Args() []interface\x7b\x7d \x7breturn []interface\x7b\x7d\x7b" ++
                  (Join (s.Fields.map (fun f => lit "&t." ++ f.CleanName)) (lit ",")
                    ++ lit "\x7d\x7d;")))])
    ∧ (∀ s ∈ md.Structs, (∀ f ∈ s.Fields, 44 ∉ f.CleanName) →
        Split (Join (s.Fields.map (fun f => f.CleanName)) (lit ",")) (lit ",")
          = s.Fields.map (fun f => f.CleanName)) := by
  refine ⟨⟨_, Create_eq ct o md h, rfl, ?_, ?_, ?_, ?_, rfl⟩, fun _ => rfl, fun _ => rfl,
    fun _ => rfl, ?_⟩
  · simp [hI]
  · simp [hS]
  · intro k; simp [hI]
  · intro k; simp [hS]
  · intro s hs hc
    have hcomma : lit "," = [44] := rfl
    rw [hcomma]
    apply Split_Join_byte
    · simpa using h s hs
    · intro x hx
      obtain ⟨f, hf, rfl⟩ := List.mem_map.mp hx
      exact hc f hf

/-- C5 witness: two tables, the first with three fields. -/
theorem C5_order_preserved_witness :
    ∃ md', Create (fun r => r) optBare (exMd [exUsers, exEvent]) = some md'
      ∧ md'.InsertStmts = [lit "\"INSERT INTO T (Id,Name,Email) VALUES (?, ?, ?)\"",
          lit "\"INSERT INTO Event (Created) VALUES (?)\""]
      ∧ md'.SelectStmts = [lit "\"SELECT Id,Name,Email FROM T\"",
          lit "\"SELECT Created FROM Event\""] :=
  have h := C5_order_preserved (fun r => r) optBare (exMd [exUsers, exEvent]) rfl rfl
    (by decide)
  match h.1 with
  | ⟨md', hc, _, hi, hs, _⟩ => ⟨md', hc, hi.trans (by decide), hs.trans (by decide)⟩

/-! ## C6: calling `Create` twice -/

/-- When there are more statements left than tables from index `n` on, the loop of `Output`
reaches an index of `md.Structs` that is out of range. -/
theorem writeStmts_none (structs : List Struct) (stmts : Code) (n : Nat)
    (hne : stmts ≠ []) (h : structs.length < n + stmts.length) :
    writeStmts structs stmts n = none := by
  induction stmts generalizing n with
  | nil => exact absurd rfl hne
  | cons i rest ih =>
    cases hidx : structs[n]? with
    | none => simp [writeStmts, hidx]
    | some s =>
      have hn : n < structs.length := by
        by_contra hc
        rw [List.getElem?_eq_none (by omega)] at hidx
        cases hidx
      simp only [List.length_cons] at h
      have hrest : rest ≠ [] := by
        intro e
        subst e
        simp only [List.length_nil] at h
        omega
      have hnone := ih (n + 1) hrest (by omega)
      simp [writeStmts, hidx, hnone]

/-- C6 (code at the failing inputs): when every table has at least one field, both calls of
`Create` return; the second call re-makes `Imports` (equal to what the first call left) but
appends to `InsertStmts`, `SelectStmts` and `StructCode` once more the entries the first call
appended, so each list holds them twice and differs from the list after one call unless
`Structs` is empty; with at least one table, `Output` on the result of the second call
panics at `md.Structs[n]`, the statement lists being longer than `Structs`. -/
theorem C6_create_twice (ct : Nat → Nat) (o : Options) (md : Metadata)
    (h : ∀ s ∈ md.Structs, s.Fields ≠ []) :
    ∃ md1 md2, Create ct o md = some md1 ∧ Create ct o md1 = some md2
      ∧ md2.Imports = md1.Imports
      ∧ md1.InsertStmts = md.InsertStmts ++ md.Structs.map insertStmt
      ∧ md2.InsertStmts = md1.InsertStmts ++ md.Structs.map insertStmt
      ∧ md1.SelectStmts = md.SelectStmts ++ md.Structs.map selectStmt
      ∧ md2.SelectStmts = md1.SelectStmts ++ md.Structs.map selectStmt
      ∧ md1.StructCode = md.StructCode ++ (md.Structs.map (structLines ct o)).flatten
      ∧ md2.StructCode = md1.StructCode ++ (md.Structs.map (structLines ct o)).flatten
      ∧ (md2.InsertStmts = md1.InsertStmts ↔ md.Structs = [])
      ∧ (md2.SelectStmts = md1.SelectStmts ↔ md.Structs = [])
      ∧ (md2.StructCode = md1.StructCode ↔ md.Structs = [])
      ∧ (md.Structs ≠ [] → ∀ order, Output md2 order = none) := by
  have h1 := Create_eq ct o md h
  refine ⟨_, _, h1, Create_eq ct o _ h, rfl, rfl, rfl, rfl, rfl, rfl, rfl, ?_, ?_, ?_, ?_⟩
  · simp
  · simp
  · simp only [List.self_eq_append_right]
    constructor
    · intro hf
      cases hs : md.Structs with
      | nil => rfl
      | cons s ss =>
        rw [hs] at hf
        simp [structLines] at hf
    · intro hs; simp [hs]
  · intro hne order
    have hlen : 0 < md.Structs.length := List.length_pos.mpr hne
    have hw : writeStmts md.Structs
        (md.InsertStmts ++ md.Structs.map insertStmt ++ md.Structs.map insertStmt) 0
          = none := by
      apply writeStmts_none
      · intro e
        have := congrArg List.length e
        simp only [List.length_append, List.length_map, List.length_nil] at this
        omega
      · simp only [List.length_append, List.length_map]
        omega
    unfold Output
    simp only [hw]

/-- C6 witness: the table `Event`, created twice: the INSERT entry is recorded twice and
`Output` panics. -/
theorem C6_create_twice_witness :
    ∃ md1 md2, Create (fun r => r) optNull (exMd [exEvent]) = some md1
      ∧ Create (fun r => r) optNull md1 = some md2
      ∧ md2.Imports = md1.Imports
      ∧ md1.InsertStmts = [lit "\"INSERT INTO Event (Created) VALUES (?)\""]
      ∧ md2.InsertStmts = [lit "\"INSERT INTO Event (Created) VALUES (?)\"",
          lit "\"INSERT INTO Event (Created) VALUES (?)\""]
      ∧ (Output md1 md1.Imports).isSome = true
      ∧ Output md2 md2.Imports = none :=
  match C6_create_twice (fun r => r) optNull (exMd [exEvent]) (by decide) with
  | ⟨md1, md2, h1, h2, hi, hins1, hins2, _, _, _, _, _, _, _, hout⟩ =>
    ⟨md1, md2, h1, h2, hi, hins1.trans (by decide),
      hins2.trans (by rw [hins1]; decide),
      by
        rw [Create_eq _ _ _ (by decide)] at h1
        cases h1
        decide,
      hout (by decide) _⟩

/-! ## C7: the import set under the null policy -/

/-- C7 (code at the failing input): under the null policy a field of the builtin type `int32`
makes `Create` store the key `int32` in `Imports`: `strings.Split("int32", ".")` has the single
element `int32`, which line 76 registers although the type has no package qualifier. -/
theorem C7_builtin_registered :
    (Create (fun r => r) optNull (exMd [exCounter])).map (fun m => m.Imports)
        = some [lit "database/sql", lit "int32"]
      ∧ Split (lit "int32") (lit ".") = [lit "int32"]
      ∧ 46 ∉ lit "int32" := by
  decide

/-! ## UTF-8: decoding what `string(r)` encodes -/

theorem runeToString_ne_nil (r : Nat) : runeToString r ≠ [] := by
  unfold runeToString
  split_ifs <;> simp

theorem decode_runeToString (r : Nat) (rest : GoString) (h : validRune r = true) :
    DecodeRuneInString (runeToString r ++ rest) = (r, (runeToString r).length) := by
  simp only [validRune, Bool.and_eq_true, decide_eq_true_eq, Bool.not_eq_true',
    Bool.and_eq_false_iff, decide_eq_false_iff_not] at h
  unfold runeToString
  split_ifs with h1 h2 h3 h4
  · have hl : leadSize r = 1 := by unfold leadSize; split_ifs <;> omega
    simp [DecodeRuneInString, hl]
  · have hl : leadSize (0xC0 + r / 64) = 2 := by unfold leadSize; split_ifs <;> omega
    have ha : acceptRange (0xC0 + r / 64) = (0x80, 0xBF) := by
      unfold acceptRange; split_ifs <;> first | rfl | omega
    simp only [List.cons_append, List.nil_append, DecodeRuneInString, hl, ha, inRange]
    simp only [List.length_cons, List.length_nil]
    rw [if_pos (by simp; omega)]
    congr 1
    omega
  · omega
  · have hl : leadSize (0xE0 + r / 4096) = 3 := by unfold leadSize; split_ifs <;> omega
    simp only [List.cons_append, List.nil_append, DecodeRuneInString, hl, inRange, isCont]
    simp only [List.length_cons, List.length_nil]
    rw [if_pos]
    · congr 1
      omega
    · unfold acceptRange
      split_ifs <;> simp <;> omega
  · have hl : leadSize (0xF0 + r / 262144) = 4 := by unfold leadSize; split_ifs <;> omega
    simp only [List.cons_append, List.nil_append, DecodeRuneInString, hl, inRange, isCont]
    simp only [List.length_cons, List.length_nil]
    rw [if_pos]
    · congr 1
      omega
    · unfold acceptRange
      split_ifs <;> simp <;> omega

theorem validRune_RuneError : validRune RuneError = true := by decide

theorem leadSize_three (s0 : Nat) (h : leadSize s0 = 3) : 0xE0 ≤ s0 ∧ s0 < 0xF0 := by
  unfold leadSize at h
  split_ifs at h <;> omega

theorem leadSize_four (s0 : Nat) (h : leadSize s0 = 4) : 0xF0 ≤ s0 ∧ s0 < 0xF5 := by
  unfold leadSize at h
  split_ifs at h <;> omega

theorem leadSize_one (s0 : Nat) (h : leadSize s0 = 1) : s0 < 0x80 := by
  unfold leadSize at h
  split_ifs at h <;> omega

/-- The rune `DecodeRuneInString` returns is always a Unicode scalar value. -/
theorem decode_valid (s : GoString) : validRune (DecodeRuneInString s).1 = true := by
  unfold DecodeRuneInString
  split
  · exact validRune_RuneError
  · rename_i s0 t
    split
    · rename_i hl
      have := leadSize_one s0 hl
      simp only [validRune, Bool.and_eq_true, decide_eq_true_eq, Bool.not_eq_true',
        Bool.and_eq_false_iff, decide_eq_false_iff_not]
      omega
    · split
      · split
        · simp only [validRune, Bool.and_eq_true, decide_eq_true_eq, Bool.not_eq_true',
            Bool.and_eq_false_iff, decide_eq_false_iff_not]
          omega
        · exact validRune_RuneError
      · exact validRune_RuneError
    · rename_i hl
      have h3 := leadSize_three s0 hl
      split
      · rename_i s1 s2 t2
        split
        · rename_i hc
          simp only [inRange, isCont, Bool.and_eq_true, decide_eq_true_eq] at hc
          simp only [validRune, Bool.and_eq_true, decide_eq_true_eq, Bool.not_eq_true',
            Bool.and_eq_false_iff, decide_eq_false_iff_not]
          unfold acceptRange at hc
          split_ifs at hc <;> omega
        · exact validRune_RuneError
      · exact validRune_RuneError
    · rename_i hl
      have h4 := leadSize_four s0 hl
      split
      · rename_i s1 s2 s3 t3
        split
        · rename_i hc
          simp only [inRange, isCont, Bool.and_eq_true, decide_eq_true_eq] at hc
          simp only [validRune, Bool.and_eq_true, decide_eq_true_eq, Bool.not_eq_true',
            Bool.and_eq_false_iff, decide_eq_false_iff_not]
          unfold acceptRange at hc
          split_ifs at hc <;> omega
        · exact validRune_RuneError
      · exact validRune_RuneError
    · exact validRune_RuneError

/-! ## `capitalize` and `nounderscore` -/

theorem ToUpper_valid (ct : Nat → Nat)
    (h1 : ∀ r, 0x7F < r → validRune r = true → validRune (ct r) = true)
    (r : Nat) (hr : validRune r = true) : validRune (ToUpper ct r) = true := by
  unfold ToUpper
  split_ifs with ha hb
  · simp only [validRune, Bool.and_eq_true, decide_eq_true_eq, Bool.not_eq_true',
      Bool.and_eq_false_iff, decide_eq_false_iff_not]
    omega
  · exact hr
  · exact h1 r (by omega) hr

theorem ToUpper_idem (ct : Nat → Nat)
    (h2 : ∀ r, 0x7F < r → validRune r = true → ToUpper ct (ct r) = ct r)
    (r : Nat) (hr : validRune r = true) : ToUpper ct (ToUpper ct r) = ToUpper ct r := by
  by_cases ha : r ≤ 0x7F
  · by_cases hb : 0x61 ≤ r ∧ r ≤ 0x7A
    · have e : ToUpper ct r = r - 0x20 := by simp [ToUpper, ha, hb]
      rw [e]
      unfold ToUpper
      rw [if_pos (by omega), if_neg (by omega)]
    · have e : ToUpper ct r = r := by simp only [ToUpper, ha, hb, if_true, if_false]
      rw [e, e]
  · have e : ToUpper ct r = ct r := by simp only [ToUpper, ha, if_false]
    rw [e]
    exact h2 r (by omega) hr

theorem ToUpper_ne_underscore (ct : Nat → Nat) (h3 : ∀ r, 0x7F < r → ct r ≠ 0x5F)
    (r : Nat) (hr : r ≠ 0x5F) : ToUpper ct r ≠ 0x5F := by
  unfold ToUpper
  split_ifs with ha hb
  · omega
  · exact hr
  · exact h3 r (by omega)

theorem capitalize_encoded (ct : Nat → Nat) (q : Nat) (rest : GoString)
    (hq : validRune q = true) :
    capitalize ct (runeToString q ++ rest) = runeToString (ToUpper ct q) ++ rest := by
  unfold capitalize
  rw [if_neg (by simp [runeToString_ne_nil])]
  simp only [decode_runeToString q rest hq, sliceFrom, List.drop_left]

theorem capitalize_of_ne_nil (ct : Nat → Nat) (x : GoString) (hx : x ≠ []) :
    capitalize ct x = runeToString (ToUpper ct (DecodeRuneInString x).1)
      ++ x.drop (DecodeRuneInString x).2 := by
  unfold capitalize
  rw [if_neg hx]
  rfl

theorem capitalize_idem (ct : Nat → Nat)
    (h1 : ∀ r, 0x7F < r → validRune r = true → validRune (ct r) = true)
    (h2 : ∀ r, 0x7F < r → validRune r = true → ToUpper ct (ct r) = ct r)
    (x : GoString) : capitalize ct (capitalize ct x) = capitalize ct x := by
  by_cases hx : x = []
  · subst hx; rfl
  · have hr := decode_valid x
    rw [capitalize_of_ne_nil ct x hx,
      capitalize_encoded ct _ _ (ToUpper_valid ct h1 _ hr), ToUpper_idem ct h2 _ hr]

theorem replaceAux_underscore (s : GoString) :
    replaceAux [95] [] s 0 = s.filter (fun b => decide (b ≠ 95)) := by
  induction s with
  | nil => rfl
  | cons c rest ih =>
    by_cases hc : c = 95
    · subst hc
      simp [replaceAux, List.isPrefixOf, ih]
    · have hc2 : ¬ (95 = c) := fun e => hc e.symm
      simp [replaceAux, List.isPrefixOf, ih, hc, hc2]

/-- Source `nounderscore` deletes the bytes `_` and keeps every other byte in place. -/
theorem nounderscore_eq_filter (s : GoString) :
    nounderscore s = s.filter (fun b => decide (b ≠ 95)) :=
  replaceAux_underscore s

theorem nounderscore_of_not_mem (s : GoString) (h : 95 ∉ s) : nounderscore s = s := by
  rw [nounderscore_eq_filter, List.filter_eq_self]
  intro b hb
  have : b ≠ 95 := fun e => h (e ▸ hb)
  simpa using this

theorem not_mem_nounderscore (s : GoString) : 95 ∉ nounderscore s := by
  rw [nounderscore_eq_filter]
  intro h
  have := (List.mem_filter.mp h).2
  simp at this

/-- An ASCII result of `DecodeRuneInString` is the first byte of the string. -/
theorem decode_ascii (s : GoString) (h : (DecodeRuneInString s).1 < 0x80) :
    ∃ t, s = (DecodeRuneInString s).1 :: t := by
  have hre : ¬ RuneError < 0x80 := by decide
  unfold DecodeRuneInString at h ⊢
  split at h
  · exact absurd h hre
  · rename_i s0 t
    split at h
    · rename_i hl
      exact ⟨t, by simp only [hl]⟩
    · rename_i hl
      have h2 : 0xC2 ≤ s0 ∧ s0 < 0xE0 := by
        unfold leadSize at hl
        split_ifs at hl <;> omega
      split at h
      · split at h
        · simp only at h; omega
        · exact absurd h hre
      · exact absurd h hre
    · rename_i hl
      have h3 := leadSize_three s0 hl
      split at h
      · split at h
        · rename_i hc
          simp only [inRange, isCont, Bool.and_eq_true, decide_eq_true_eq] at hc
          simp only at h
          unfold acceptRange at hc
          split_ifs at hc <;> omega
        · exact absurd h hre
      · exact absurd h hre
    · rename_i hl
      have h4 := leadSize_four s0 hl
      split at h
      · split at h
        · rename_i hc
          simp only [inRange, isCont, Bool.and_eq_true, decide_eq_true_eq] at hc
          simp only at h
          unfold acceptRange at hc
          split_ifs at hc <;> omega
        · exact absurd h hre
      · exact absurd h hre
    · exact absurd h hre

theorem runeToString_byte (q b : Nat) (hb : b ∈ runeToString q) : b = q ∨ 0x80 ≤ b := by
  unfold runeToString at hb
  split_ifs at hb <;> simp at hb <;> omega

theorem not_mem_capitalize (ct : Nat → Nat) (h3 : ∀ r, 0x7F < r → ct r ≠ 0x5F)
    (y : GoString) (hy : 95 ∉ y) : 95 ∉ capitalize ct y := by
  by_cases hx : y = []
  · subst hx; simp [capitalize]
  · rw [capitalize_of_ne_nil ct y hx]
    intro hm
    rcases List.mem_append.mp hm with hm | hm
    · have hne : (DecodeRuneInString y).1 ≠ 0x5F := by
        intro e
        obtain ⟨t, ht⟩ := decode_ascii y (by omega)
        rw [e] at ht
        exact hy (ht ▸ List.mem_cons_self _ _)
      rcases runeToString_byte _ _ hm with hq | hq
      · exact ToUpper_ne_underscore ct h3 _ hne hq.symm
      · omega
    · exact hy (List.mem_of_mem_drop hm)

/-! ## C8: the name sanitizer is idempotent -/

theorem latin1Upper_valid (r : Nat) (_ : 0x7F < r) (h : validRune r = true) :
    validRune (latin1Upper r) = true := by
  unfold latin1Upper
  split_ifs with hc
  · simp only [validRune, Bool.and_eq_true, decide_eq_true_eq, Bool.not_eq_true',
      Bool.and_eq_false_iff, decide_eq_false_iff_not]
    omega
  · exact h

theorem latin1Upper_idem (r : Nat) (hr : 0x7F < r) (_ : validRune r = true) :
    ToUpper latin1Upper (latin1Upper r) = latin1Upper r := by
  unfold ToUpper latin1Upper
  split_ifs <;> omega

theorem latin1Upper_ne_underscore (r : Nat) (hr : 0x7F < r) : latin1Upper r ≠ 0x5F := by
  unfold latin1Upper
  split_ifs <;> omega

/-- C8: for an upper-case table of `unicode.ToUpper` that maps scalar values to scalar values,
is idempotent and never yields `_`, `capitalize (capitalize x) = capitalize x` for every string
`x` (valid UTF-8 or not), the same holds for `s x = capitalize (nounderscore x)`, and
`capitalize x = x` when `x` starts with the encoding of a rune that `ToUpper` fixes, in
particular with an ASCII letter `A`..`Z`. -/
theorem C8_sanitize_idempotent (ct : Nat → Nat)
    (h1 : ∀ r, 0x7F < r → validRune r = true → validRune (ct r) = true)
    (h2 : ∀ r, 0x7F < r → validRune r = true → ToUpper ct (ct r) = ct r)
    (h3 : ∀ r, 0x7F < r → ct r ≠ 0x5F) :
    (∀ x, capitalize ct (capitalize ct x) = capitalize ct x)
    ∧ (∀ x, capitalize ct (nounderscore (capitalize ct (nounderscore x)))
        = capitalize ct (nounderscore x))
    ∧ (∀ r rest, validRune r = true → ToUpper ct r = r →
        capitalize ct (runeToString r ++ rest) = runeToString r ++ rest)
    ∧ (∀ c rest, 0x41 ≤ c → c ≤ 0x5A → capitalize ct (c :: rest) = c :: rest) := by
  refine ⟨capitalize_idem ct h1 h2, ?_, ?_, ?_⟩
  · intro x
    rw [nounderscore_of_not_mem _ (not_mem_capitalize ct h3 _ (not_mem_nounderscore x))]
    exact capitalize_idem ct h1 h2 _
  · intro r rest hv hfix
    rw [capitalize_encoded ct r rest hv, hfix]
  · intro c rest hlo hhi
    have hv : validRune c = true := by
      simp only [validRune, Bool.and_eq_true, decide_eq_true_eq, Bool.not_eq_true',
        Bool.and_eq_false_iff, decide_eq_false_iff_not]
      omega
    have henc : runeToString c = [c] := by
      unfold runeToString
      rw [if_pos (by omega)]
    have hup : ToUpper ct c = c := by
      unfold ToUpper
      rw [if_pos (by omega), if_neg (by omega)]
    have := capitalize_encoded ct c rest hv
    rw [hup, henc] at this
    exact this

/-- C8 witness: with the Latin-1 table, `éa_b` is capitalized to `Éa_b`, and capitalizing
again (with or without stripping underscores) changes nothing more. -/
theorem C8_sanitize_idempotent_witness :
    capitalize latin1Upper [0xC3, 0xA9, 0x61, 0x5F, 0x62] = [0xC3, 0x89, 0x61, 0x5F, 0x62]
    ∧ capitalize latin1Upper (capitalize latin1Upper [0xC3, 0xA9, 0x61, 0x5F, 0x62])
        = capitalize latin1Upper [0xC3, 0xA9, 0x61, 0x5F, 0x62]
    ∧ capitalize latin1Upper (nounderscore [0xC3, 0xA9, 0x61, 0x5F, 0x62])
        = [0xC3, 0x89, 0x61, 0x62]
    ∧ capitalize latin1Upper (nounderscore
          (capitalize latin1Upper (nounderscore [0xC3, 0xA9, 0x61, 0x5F, 0x62])))
        = capitalize latin1Upper (nounderscore [0xC3, 0xA9, 0x61, 0x5F, 0x62])
    ∧ capitalize latin1Upper (lit "Id") = lit "Id" :=
  have h := C8_sanitize_idempotent latin1Upper latin1Upper_valid latin1Upper_idem
    latin1Upper_ne_underscore
  ⟨by decide, h.1 _, by decide, h.2.1 _, h.2.2.2 0x49 (lit "d") (by decide) (by decide)⟩

/-! ## C9: order of the import lines -/

/-- C9 (code at the failing input): under the null policy the table `Event` with a
`time.Time` column leaves the two keys `database/sql` and `time` in `Imports`; both orders of
the two keys are possible iteration orders of the map, and `Output` writes different text for
them (the two `import` lines are exchanged). -/
theorem C9_import_order_varies :
    ∃ md', Create (fun r => r) optNull (exMd [exEvent]) = some md'
      ∧ md'.Imports = [lit "database/sql", lit "time"]
      ∧ [lit "database/sql", lit "time"] ∈ iterationOrders md'.Imports
      ∧ [lit "time", lit "database/sql"] ∈ iterationOrders md'.Imports
      ∧ (Output md' [lit "database/sql", lit "time"]).isSome = true
      ∧ Output md' [lit "database/sql", lit "time"]
          ≠ Output md' [lit "time", lit "database/sql"] := by
  refine ⟨_, Create_eq _ _ _ (by decide), by decide, ?_, ?_, by decide, by decide⟩
  · exact List.mem_permutations.mpr (List.Perm.refl _)
  · exact List.mem_permutations.mpr (List.Perm.swap _ _ _)

/-! ## C10: the entry template of `render` -/

/-- C10 (code at the failing input): with no template file `render` executes the template
named `output`; with a file it executes the template named by the path as given, not by its
base name: for `tpl/model.tpl` the name passed to `ExecuteTemplate` is `tpl/model.tpl`, while
`ParseFiles` registered the file under `model.tpl`. -/
theorem C10_entry_name_is_path :
    renderTplName (lit "") = lit "output"
      ∧ (∀ c rest, renderTplName (c :: rest) = c :: rest)
      ∧ renderTplName (lit "tpl/model.tpl") = lit "tpl/model.tpl"
      ∧ Base (lit "tpl/model.tpl") = lit "model.tpl"
      ∧ renderTplName (lit "tpl/model.tpl") ≠ Base (lit "tpl/model.tpl")
      ∧ renderTplName (lit "model.tpl") = Base (lit "model.tpl") := by
  refine ⟨by decide, ?_, by decide, by decide, by decide, by decide⟩
  intro c rest
  have hnil : lit "" = [] := rfl
  simp [renderTplName, hnil]

/-! ## C11: the pointer policy -/

/-- C11: under the pointer policy, for a field whose type rendering does not begin with `[]`,
the declaration line `Create` appends carries `*` followed by the rendering, whatever the type
is (primitive, builtin or external), no import is registered, and the template helper
`typepointer` returns the same expression. -/
theorem C11_pointer_policy (ct : Nat → Nat) (sq : Bool) (st : FieldLoop) (f : Field)
    (h : HasPrefix f.Typ (lit "[]") = false) :
    (fieldStep ct ⟨lit "pointer", sq⟩ st f).map (fun r => r.md.StructCode)
        = some (st.md.StructCode ++
            [f.CleanName ++ (lit " " ++ ((lit "*" ++ f.Typ) ++
              (fieldTag ⟨lit "pointer", sq⟩ f ++ lit ";")))])
    ∧ mapType ct (lit "pointer") st.md.Imports f.Typ = some (lit "*" ++ f.Typ, st.md.Imports)
    ∧ typepointer f = lit "*" ++ f.Typ := by
  have hnp : lit "pointer" ≠ lit "null" := by decide
  refine ⟨?_, ?_, ?_⟩
  · rw [fieldStep_code]; simp [typeExpr, h, hnp]
  · rw [mapType_eq]; simp [typeExpr, importsStep, h, hnp]
  · simp [typepointer, h]

/-- C11 witness: a primitive, a builtin and an external type under the pointer policy. -/
theorem C11_pointer_policy_witness :
    (fieldStep (fun r => r) optPointer ⟨exMd [], [], []⟩ (exField "id" "Id" "int64")).map
        (fun r => r.md.StructCode) = some [lit "Id *int64;"]
    ∧ (fieldStep (fun r => r) optPointer ⟨exMd [], [], []⟩ (exField "n" "N" "int32")).map
        (fun r => r.md.StructCode) = some [lit "N *int32;"]
    ∧ (fieldStep (fun r => r) optPointer ⟨exMd [], [], []⟩
          (exField "created" "Created" "time.Time")).map
        (fun r => r.md.StructCode) = some [lit "Created *time.Time;"]
    ∧ typepointer (exField "created" "Created" "time.Time") = lit "*time.Time" :=
  have h1 := C11_pointer_policy (fun r => r) false ⟨exMd [], [], []⟩
    (exField "id" "Id" "int64") (by decide)
  have h2 := C11_pointer_policy (fun r => r) false ⟨exMd [], [], []⟩
    (exField "n" "N" "int32") (by decide)
  have h3 := C11_pointer_policy (fun r => r) false ⟨exMd [], [], []⟩
    (exField "created" "Created" "time.Time") (by decide)
  ⟨h1.1.trans (by decide), h2.1.trans (by decide), h3.1.trans (by decide),
    h3.2.2.trans (by decide)⟩

/-! ## C12: text of the SELECT statement -/

/-- C12: when every table has at least one field, `Create` returns and appends to
`SelectStmts`, table by table, the text `"SELECT <c1>,...,<cn> FROM <T>"`, the column list
being the fields' clean names in field order joined by `,`; the INSERT entry of the same
table carries the very same column list. -/
theorem C12_select_text (ct : Nat → Nat) (o : Options) (md : Metadata)
    (h : ∀ s ∈ md.Structs, s.Fields ≠ []) :
    (∃ md', Create ct o md = some md'
      ∧ md'.SelectStmts = md.SelectStmts ++ md.Structs.map selectStmt
      ∧ md'.InsertStmts = md.InsertStmts ++ md.Structs.map insertStmt)
    ∧ (∀ s : Struct, selectStmt s =
        lit "\"SELECT " ++ (Join (s.Fields.map (fun f => f.CleanName)) (lit ",") ++
          (lit " FROM " ++ (s.CleanName ++ lit "\""))))
    ∧ (∀ s : Struct, ∃ values, insertStmt s =
        lit "\"INSERT INTO " ++ (s.CleanName ++ (lit " (" ++
          (Join (s.Fields.map (fun f => f.CleanName)) (lit ",") ++ (lit ") VALUES (" ++
            (values ++ lit ")\""))))))
    ∧ (∀ s : Struct, s.Fields.map (fun f => f.CleanName) = [lit "Id", lit "Name", lit "Email"] →
        selectStmt s = lit "\"SELECT Id,Name,Email FROM " ++ (s.CleanName ++ lit "\"")) := by
  refine ⟨⟨_, Create_eq ct o md h, rfl, rfl⟩, fun _ => rfl, fun _ => ⟨_, rfl⟩, ?_⟩
  intro s hs
  unfold selectStmt
  rw [hs]
  rfl

/-- C12 witness: the table `T` with fields `Id, Name, Email`. -/
theorem C12_select_text_witness :
    (∃ md', Create (fun r => r) optBare (exMd [exUsers]) = some md'
      ∧ md'.SelectStmts = [lit "\"SELECT Id,Name,Email FROM T\""]) :=
  have h := C12_select_text (fun r => r) optBare (exMd [exUsers]) (by decide)
  match h.1 with
  | ⟨md', hc, hs, _⟩ => ⟨md', hc, hs.trans (by decide)⟩

/-! ## C13: number of placeholders -/

theorem count_q_Join (n : Nat) :
    (Join (List.replicate n (lit "?")) (lit ", ")).count 63 = n := by
  induction n with
  | zero => rfl
  | succ n ih =>
    cases n with
    | zero => rfl
    | succ m =>
      have e : Join (List.replicate (m + 1 + 1) (lit "?")) (lit ", ")
          = lit "?" ++ lit ", " ++ Join (List.replicate (m + 1) (lit "?")) (lit ", ") := by
        simp only [List.replicate_succ, Join]
      rw [e, List.count_append, ih]
      have : (lit "?" ++ lit ", ").count 63 = 1 := by decide
      rw [this]
      omega

/-- C13: for a table with n >= 1 fields the slice of line 100 does not panic, and the VALUES
list it yields, which `Create` splices into the INSERT entry, holds exactly n bytes `?`, as
many as the column list has entries and the table has fields. -/
theorem C13_placeholder_count (ct : Nat → Nat) (o : Options) (md : Metadata)
    (h : ∀ s ∈ md.Structs, s.Fields ≠ []) :
    (∃ md', Create ct o md = some md'
      ∧ md'.InsertStmts = md.InsertStmts ++ md.Structs.map insertStmt)
    ∧ (∀ s ∈ md.Structs, ∃ values,
        sliceTo (Repeat (lit "?, ") s.Fields.length)
            (((Repeat (lit "?, ") s.Fields.length).length : Int) - 2) = some values
        ∧ insertStmt s =
          lit "\"INSERT INTO " ++ (s.CleanName ++ (lit " (" ++
            (Join (s.Fields.map (fun f => f.CleanName)) (lit ",") ++ (lit ") VALUES (" ++
              (values ++ lit ")\"")))))
        ∧ values.count 63 = s.Fields.length
        ∧ (s.Fields.map (fun f => f.CleanName)).length = s.Fields.length
        ∧ values = Join (List.replicate s.Fields.length (lit "?")) (lit ", ")) := by
  refine ⟨⟨_, Create_eq ct o md h, rfl⟩, ?_⟩
  intro s hs
  obtain ⟨n, hn⟩ : ∃ n, s.Fields.length = n + 1 := by
    cases hf : s.Fields with
    | nil => exact absurd hf (h s hs)
    | cons a l => exact ⟨l.length, by simp⟩
  refine ⟨Join (List.replicate s.Fields.length (lit "?")) (lit ", "), ?_, rfl, count_q_Join _,
    by simp, rfl⟩
  rw [hn]
  exact sliceTo_insertValues n

/-- C13 witness: three fields, three placeholders. -/
theorem C13_placeholder_count_witness :
    ∃ values,
      sliceTo (Repeat (lit "?, ") 3) (((Repeat (lit "?, ") 3).length : Int) - 2) = some values
      ∧ values = lit "?, ?, ?" ∧ values.count 63 = 3 :=
  have h := C13_placeholder_count (fun r => r) optBare (exMd [exUsers]) (by decide)
  match h.2 exUsers (by decide) with
  | ⟨values, hv, _, hc, _, he⟩ => ⟨values, hv, he.trans (by decide), hc⟩

/-! ## C14: what `capitalize` and `nounderscore` return -/

/-- A non-empty string either begins with the encoding `string(r)` of a scalar value `r`,
which `DecodeRuneInString` returns with its width, or is decoded as `(RuneError, 1)`. -/
theorem decode_cases (c : Nat) (t : GoString) :
    (∃ r rest, validRune r = true ∧ c :: t = runeToString r ++ rest
        ∧ DecodeRuneInString (c :: t) = (r, (runeToString r).length))
      ∨ DecodeRuneInString (c :: t) = (RuneError, 1) := by
  by_cases hd : DecodeRuneInString (c :: t) = (RuneError, 1)
  · exact Or.inr hd
  · left
    refine ⟨(DecodeRuneInString (c :: t)).1, (c :: t).drop (DecodeRuneInString (c :: t)).2,
      decode_valid _, ?_⟩
    suffices hs : c :: t = runeToString (DecodeRuneInString (c :: t)).1
        ++ (c :: t).drop (DecodeRuneInString (c :: t)).2 by
      refine ⟨hs, ?_⟩
      have hv := decode_valid (c :: t)
      have := decode_runeToString (DecodeRuneInString (c :: t)).1
        ((c :: t).drop (DecodeRuneInString (c :: t)).2) hv
      rw [← hs] at this
      exact this
    have hk : leadSize c = 0 ∨ leadSize c = 1 ∨ leadSize c = 2 ∨ leadSize c = 3
        ∨ leadSize c = 4 := by
      unfold leadSize
      split_ifs <;> simp
    rcases hk with hl | hl | hl | hl | hl
    · exact absurd (by simp [DecodeRuneInString, hl]) hd
    · have h1 := leadSize_one c hl
      simp [DecodeRuneInString, hl, runeToString, Nat.le_of_lt_succ h1]
    · have h2 : 0xC2 ≤ c ∧ c < 0xE0 := by
        unfold leadSize at hl
        split_ifs at hl <;> omega
      cases t with
      | nil => exact absurd (by simp [DecodeRuneInString, hl]) hd
      | cons s1 t1 =>
        by_cases hc : inRange (acceptRange c).1 (acceptRange c).2 s1 = true
        · simp only [DecodeRuneInString, hl, hc, if_true]
          simp only [inRange, Bool.and_eq_true, decide_eq_true_eq] at hc
          have ha : acceptRange c = (0x80, 0xBF) := by
            unfold acceptRange; split_ifs <;> first | rfl | omega
          rw [ha] at hc
          simp only at hc
          unfold runeToString
          rw [if_neg (by omega), if_pos (by omega)]
          simp only [List.cons_append, List.nil_append, List.drop_succ_cons, List.drop_zero,
            List.cons.injEq, and_true]
          omega
        · exact absurd (by simp [DecodeRuneInString, hl, hc]) hd
    · have h3 := leadSize_three c hl
      match t with
      | [] => exact absurd (by simp [DecodeRuneInString, hl]) hd
      | [_] => exact absurd (by simp [DecodeRuneInString, hl]) hd
      | s1 :: s2 :: t2 =>
        by_cases hc : (inRange (acceptRange c).1 (acceptRange c).2 s1 && isCont s2) = true
        · simp only [DecodeRuneInString, hl, hc, if_true]
          simp only [inRange, isCont, Bool.and_eq_true, decide_eq_true_eq] at hc
          have hb : 0x80 ≤ s1 ∧ s1 ≤ 0xBF ∧ (c = 0xE0 → 0xA0 ≤ s1) ∧ (c = 0xED → s1 ≤ 0x9F) := by
            unfold acceptRange at hc
            split_ifs at hc <;> simp only at hc <;> omega
          unfold runeToString
          rw [if_neg (by omega), if_neg (by omega), if_neg (by omega), if_pos (by omega)]
          simp only [List.cons_append, List.nil_append, List.drop_succ_cons, List.drop_zero,
            List.cons.injEq, and_true]
          omega
        · exact absurd (by simp [DecodeRuneInString, hl, hc]) hd
    · have h4 := leadSize_four c hl
      match t with
      | [] => exact absurd (by simp [DecodeRuneInString, hl]) hd
      | [_] => exact absurd (by simp [DecodeRuneInString, hl]) hd
      | [_, _] => exact absurd (by simp [DecodeRuneInString, hl]) hd
      | s1 :: s2 :: s3 :: t3 =>
        by_cases hc : (inRange (acceptRange c).1 (acceptRange c).2 s1 && isCont s2
            && isCont s3) = true
        · simp only [DecodeRuneInString, hl, hc, if_true]
          simp only [inRange, isCont, Bool.and_eq_true, decide_eq_true_eq] at hc
          have hr : acceptRange c = (0x80, 0xBF) ∧ 0xF0 < c ∧ c < 0xF4
              ∨ acceptRange c = (0x90, 0xBF) ∧ c = 0xF0
              ∨ acceptRange c = (0x80, 0x8F) ∧ c = 0xF4 := by
            unfold acceptRange
            split_ifs <;> simp <;> omega
          have hb : 0x80 ≤ s1 ∧ s1 ≤ 0xBF ∧ (c = 0xF0 → 0x90 ≤ s1) ∧ (c = 0xF4 → s1 ≤ 0x8F) := by
            rcases hr with ⟨e, _, _⟩ | ⟨e, _⟩ | ⟨e, _⟩ <;> rw [e] at hc <;> simp only at hc
              <;> omega
          unfold runeToString
          rw [if_neg (by omega), if_neg (by omega), if_neg (by omega), if_neg (by omega)]
          simp only [List.cons_append, List.nil_append, List.drop_succ_cons, List.drop_zero,
            List.cons.injEq, and_true]
          omega
        · exact absurd (by simp [DecodeRuneInString, hl, hc]) hd

/-- C14: `capitalize` returns the empty string for the empty string; on a string that begins
with the encoding of a scalar value `r` it returns the encoding of `ToUpper r` followed by the
remaining bytes unchanged, and every other non-empty string begins with an ill-formed byte,
which Go decodes as U+FFFD of width one, so the result is the encoding of `ToUpper U+FFFD`
followed by the bytes after the first. `nounderscore` keeps exactly the bytes other than `_`,
in order, and (for an upper-case table that never yields `_`) `capitalize (nounderscore s)`
holds no `_`. -/
theorem C14_capitalize_nounderscore (ct : Nat → Nat) (h3 : ∀ r, 0x7F < r → ct r ≠ 0x5F) :
    capitalize ct [] = []
    ∧ (∀ r rest, validRune r = true →
        capitalize ct (runeToString r ++ rest) = runeToString (ToUpper ct r) ++ rest)
    ∧ (∀ c t,
        (∃ r rest, validRune r = true ∧ c :: t = runeToString r ++ rest
          ∧ capitalize ct (c :: t) = runeToString (ToUpper ct r) ++ rest)
        ∨ (DecodeRuneInString (c :: t) = (RuneError, 1)
          ∧ capitalize ct (c :: t) = runeToString (ToUpper ct RuneError) ++ t))
    ∧ (∀ s, nounderscore s = s.filter (fun b => decide (b ≠ 95)))
    ∧ (∀ s, 95 ∉ capitalize ct (nounderscore s)) := by
  refine ⟨rfl, fun r rest hv => capitalize_encoded ct r rest hv, ?_, nounderscore_eq_filter,
    fun s => not_mem_capitalize ct h3 _ (not_mem_nounderscore s)⟩
  intro c t
  rcases decode_cases c t with ⟨r, rest, hv, hs, _⟩ | hd
  · left
    refine ⟨r, rest, hv, hs, ?_⟩
    rw [hs]
    exact capitalize_encoded ct r rest hv
  · right
    refine ⟨hd, ?_⟩
    rw [capitalize_of_ne_nil ct (c :: t) (by simp), hd]
    rfl

/-- C14 witness: with the Latin-1 table, `éa` gives `Éa`, `id` gives `Id`, the ill-formed
`0xFF a` gives U+FFFD followed by `a`, and `_é_a` without underscores, capitalized, is
`Éa`. -/
theorem C14_capitalize_nounderscore_witness :
    capitalize latin1Upper [0xC3, 0xA9, 0x61] = [0xC3, 0x89, 0x61]
    ∧ capitalize latin1Upper (lit "id") = lit "Id"
    ∧ capitalize latin1Upper [0xFF, 0x61] = [0xEF, 0xBF, 0xBD, 0x61]
    ∧ nounderscore [0x5F, 0xC3, 0xA9, 0x5F, 0x61] = [0xC3, 0xA9, 0x61]
    ∧ 95 ∉ capitalize latin1Upper (nounderscore [0x5F, 0xC3, 0xA9, 0x5F, 0x61]) :=
  have h := C14_capitalize_nounderscore latin1Upper latin1Upper_ne_underscore
  ⟨(h.2.1 0xE9 [0x61] (by decide)).trans (by decide),
    (h.2.1 0x69 (lit "d") (by decide)).trans (by decide), by decide,
    (h.2.2.2.1 _).trans (by decide), h.2.2.2.2 _⟩

/-! ## C15: `SafeArgs` -/

theorem appendArgs_succ (quote : GoString → GoString) (xs args : List GoString) (i : Nat) :
    appendArgs quote args xs (i + 1) = args ++ xs.map quote := by
  induction xs generalizing args i with
  | nil => simp [appendArgs]
  | cons v rest ih => simp [appendArgs, ih]

theorem appendArgs_zero (quote : GoString → GoString) (p0 : GoString)
    (rest args : List GoString) :
    appendArgs quote args (p0 :: rest) 0 = args ++ p0 :: rest.map quote := by
  simp [appendArgs, appendArgs_succ]

theorem sliceArgsTo_dropLast (xs : List GoString) (d : GoString) :
    sliceArgsTo (xs ++ [d]) (((xs ++ [d]).length : Int) - 1) = some xs := by
  unfold sliceArgsTo
  rw [if_pos (by simp)]
  congr 1
  have : ((((xs ++ [d]).length : Nat) : Int) - 1).toNat = xs.length := by
    rw [List.length_append, List.length_singleton]; omega
  rw [this, List.take_left]

/-- C15: for a command line `p0 a1 ... ak dsn` whose trailing positional argument is the DSN,
`cliAction` sets `Args` to `p0`, the quoted `a1 ... ak` and the quoted DSN, and `SafeArgs` to
`Args` without its final element; `SafeArgs`, and with it the provenance comment of the
default template, is the same for every DSN. -/
theorem C15_safe_args (quote : GoString → GoString) (args0 safe0 : List GoString)
    (p0 : GoString) (rest : List GoString) (dsn : GoString) :
    cliArgs quote args0 safe0 (p0 :: rest ++ [dsn]) true
        = some ⟨args0 ++ p0 :: rest.map quote ++ [quote dsn], args0 ++ p0 :: rest.map quote⟩
    ∧ (args0 ++ p0 :: rest.map quote ++ [quote dsn]).dropLast = args0 ++ p0 :: rest.map quote
    ∧ (∀ dsn2, (cliArgs quote args0 safe0 (p0 :: rest ++ [dsn2]) true).map (fun c => c.SafeArgs)
        = (cliArgs quote args0 safe0 (p0 :: rest ++ [dsn]) true).map (fun c => c.SafeArgs))
    ∧ (∀ dsn2,
        (cliArgs quote args0 safe0 (p0 :: rest ++ [dsn2]) true).map
            (fun c => provenanceLine c.SafeArgs)
          = some (provenanceLine (args0 ++ p0 :: rest.map quote))) := by
  have key : ∀ d, cliArgs quote args0 safe0 (p0 :: rest ++ [d]) true
      = some ⟨args0 ++ p0 :: rest.map quote ++ [quote d], args0 ++ p0 :: rest.map quote⟩ := by
    intro d
    have e : appendArgs quote args0 (p0 :: rest ++ [d]) 0
        = (args0 ++ p0 :: rest.map quote) ++ [quote d] := by
      rw [List.cons_append, appendArgs_zero]
      simp
    unfold cliArgs
    simp only [e, if_true, sliceArgsTo_dropLast]
  refine ⟨key dsn, ?_, ?_, ?_⟩
  · rw [List.dropLast_concat]
  · intro d; rw [key d, key dsn]; rfl
  · intro d; rw [key d]; rfl

/-! ## C16: clean names -/

/-- `Create` returns only when every table has a field, and then with the closed form. -/
theorem Create_some (ct : Nat → Nat) (o : Options) (md md' : Metadata)
    (h : Create ct o md = some md') :
    (∀ s ∈ md.Structs, s.Fields ≠ []) ∧ md' =
      { md with
        Imports := importsOf o (importsInit o) md.Structs
        StructCode := md.StructCode ++ (md.Structs.map (structLines ct o)).flatten
        InsertStmts := md.InsertStmts ++ md.Structs.map insertStmt
        SelectStmts := md.SelectStmts ++ md.Structs.map selectStmt } := by
  by_cases hall : ∀ s ∈ md.Structs, s.Fields ≠ []
  · refine ⟨hall, ?_⟩
    rw [Create_eq ct o md hall] at h
    exact (Option.some.inj h).symm
  · exfalso
    have hex : ∃ s ∈ md.Structs, s.Fields = [] := by
      by_contra hc
      apply hall
      intro s hs hf
      exact hc ⟨s, hs, hf⟩
    have hnone : Create ct o md = none := by
      unfold Create
      exact structLoop_none ct o md.Structs _ hex
    rw [hnone] at h
    exact Option.noConfusion h

/-- C16 (as stated, refuted): a table given with raw names only (empty clean names) still has
empty clean names after `Create`, not `capitalize(Name)`; the generated declaration is written
with the empty names. -/
theorem C16_counterexample :
    (Create (fun r => r) optBare (exMd [⟨lit "t", lit "", [exField "id" "" "int64"]⟩])).map
        (fun m => m.Structs.map (fun s => (s.CleanName, s.Fields.map (fun f => f.CleanName))))
        = some [(lit "", [lit ""])]
      ∧ capitalize (fun r => r) (lit "id") = lit "Id"
      ∧ capitalize (fun r => r) (lit "t") = lit "T"
      ∧ (Create (fun r => r) optBare (exMd [⟨lit "t", lit "", [exField "id" "" "int64"]⟩])).map
        (fun m => m.StructCode.take 2) = some [lit "type  struct \x7b", lit " int64;"] := by
  decide

/-- C16 (amended): `Create` does not write any `CleanName`: whenever it returns, `Structs`
(every `Name`, `CleanName` and type), `Args` and `Package` are as they were before the call;
the clean names it writes into the generated text are the ones it was given. -/
theorem C16_structs_unchanged (ct : Nat → Nat) (o : Options) (md md' : Metadata)
    (h : Create ct o md = some md') :
    md'.Structs = md.Structs ∧ md'.Args = md.Args ∧ md'.Package = md.Package
      ∧ md'.StructCode = md.StructCode ++ (md.Structs.map (structLines ct o)).flatten := by
  obtain ⟨_, e⟩ := Create_some ct o md md' h
  subst e
  exact ⟨rfl, rfl, rfl, rfl⟩

/-- C16 witness: the table `T` keeps its names through `Create`. -/
theorem C16_structs_unchanged_witness :
    ∃ md', Create (fun r => r) optBare (exMd [exUsers]) = some md'
      ∧ md'.Structs = [exUsers] :=
  match h : Create (fun r => r) optBare (exMd [exUsers]) with
  | some md' => ⟨md', rfl, (C16_structs_unchanged (fun r => r) optBare _ md' h).1⟩
  | none => absurd h (by decide)

/-! ## C17: the default template -/

theorem tplColumnsLoop_eq (ct : Nat → Nat) (fs : List Field) (i : Nat) :
    tplColumnsLoop ct ((i + fs.length : Nat) : Int) fs i
      = Join (fs.map (fun f => capitalize ct f.Name)) (lit ",") := by
  induction fs generalizing i with
  | nil => rfl
  | cons v rest ih =>
    cases rest with
    | nil =>
      simp only [tplColumnsLoop, List.length_singleton, List.map, Join]
      rw [if_neg (by omega)]
      simp
    | cons w rest2 =>
      have e : i + (v :: w :: rest2).length = (i + 1) + (w :: rest2).length := by
        simp only [List.length_cons]; omega
      rw [e]
      simp only [tplColumnsLoop, List.map, Join] at ih ⊢
      rw [if_pos (by simp only [List.length_cons]; omega), ih (i + 1)]

theorem tplValuesLoop_eq (ct : Nat → Nat) (fs : List Field) (i : Nat) :
    tplValuesLoop ct ((i + fs.length : Nat) : Int) fs i
      = Join (fs.map (fun f => lit ":" ++ capitalize ct f.Name)) (lit ",") := by
  induction fs generalizing i with
  | nil => rfl
  | cons v rest ih =>
    cases rest with
    | nil =>
      simp only [tplValuesLoop, List.length_singleton, List.map, Join]
      rw [if_neg (by omega)]
      simp
    | cons w rest2 =>
      have e : i + (v :: w :: rest2).length = (i + 1) + (w :: rest2).length := by
        simp only [List.length_cons]; omega
      rw [e]
      simp only [tplValuesLoop, List.map, Join] at ih ⊢
      rw [if_pos (by simp only [List.length_cons]; omega), ih (i + 1)]

theorem isSqlNullable_cases (t : GoString) (h : isSqlNullable t = true) :
    t = lit "bool" ∨ t = lit "float64" ∨ t = lit "int64" ∨ t = lit "string" := by
  simp only [isSqlNullable, Bool.or_eq_true, decide_eq_true_eq] at h
  tauto

theorem typenull_ne_bare (ct : Nat → Nat) (f : Field) (h : HasPrefix f.Typ (lit "[]") = false) :
    typenull ct f ≠ f.Typ := by
  cases hq : isSqlNullable f.Typ with
  | true =>
    have e : typenull ct f = lit "sql.Null" ++ capitalize ct f.Typ := by
      simp [typenull, h, hq]
    rw [e]
    rcases isSqlNullable_cases _ hq with ht | ht | ht | ht <;> rw [ht]
    · rw [capitalize_bool]; decide
    · rw [capitalize_float64]; decide
    · rw [capitalize_int64]; decide
    · rw [capitalize_string]; decide
  | false =>
    have e : typenull ct f = lit "*" ++ f.Typ := by
      simp [typenull, h, hq]
    rw [e]
    intro hc
    have := congrArg List.length hc
    have h1 : (lit "*").length = 1 := rfl
    rw [List.length_append, h1] at this
    omega

/-- C17 (as stated, refuted): for a table with an `int64` column the default template writes
the member `Id sql.NullInt64`, not the bare `Id int64`. -/
theorem C17_counterexample :
    tplStructDecl (fun r => r) ⟨lit "t", lit "", [exField "id" "" "int64"]⟩
        = lit "\ntype t struct \x7b\n  Id sql.NullInt64\n\x7d\n"
      ∧ tplStructDecl (fun r => r) ⟨lit "t", lit "", [exField "id" "" "int64"]⟩
        ≠ lit "\ntype t struct \x7b\n  Id int64\n\x7d\n" := by
  decide

/-- C17 (amended): the default template writes the package line, the provenance comment,
the import of `database/sql`, one `InsertStmts` map (an entry per table, with the capitalized
column names and the named placeholders `:<Name>`) and one struct declaration per table, and
no `SelectStmts` map; the type written for a field is `typenull` of the field: `sql.Null`
followed by the capitalized type for `bool`, `float64`, `int64`, `string`, `*` followed by the
type for every other non-array type, the bare type string for array types only. -/
theorem C17_default_template (ct : Nat → Nat) (package : GoString) (safeArgs : List GoString)
    (tables : List Struct) :
    renderDefault ct package safeArgs tables
        = lit "package " ++ package
          ++ lit "\n\n// GENERATED BY dbtogo (github.com/kdar/dbtogo); DO NOT EDIT\n"
          ++ (lit "// ---args: " ++ Join safeArgs (lit " ")) ++ lit "\n\n" ++ lit "\n"
          ++ lit "\n\nimport \"database/sql\"\n\nvar InsertStmts = map[string]string\x7b\n"
          ++ (tables.map (tplInsertEntry ct)).flatten ++ lit "\x7d\n\n"
          ++ (tables.map (tplStructDecl ct)).flatten
    ∧ (∀ t : Struct, tplInsertEntry ct t
        = lit "  \"" ++ t.Name ++ lit "\": \"INSERT INTO " ++ t.Name ++ lit " ("
          ++ Join (t.Fields.map (fun f => capitalize ct f.Name)) (lit ",") ++ lit ") VALUES ("
          ++ Join (t.Fields.map (fun f => lit ":" ++ capitalize ct f.Name)) (lit ",")
          ++ lit ")\",\n")
    ∧ (∀ t : Struct, tplStructDecl ct t
        = lit "\ntype " ++ t.Name ++ lit " struct \x7b\n"
          ++ (t.Fields.map (fun f =>
              lit "  " ++ capitalize ct f.Name ++ lit " " ++ typenull ct f ++ lit "\n")).flatten
          ++ lit "\x7d\n")
    ∧ (∀ f : Field, HasPrefix f.Typ (lit "[]") = true → typenull ct f = f.Typ)
    ∧ (∀ f : Field, HasPrefix f.Typ (lit "[]") = false → isSqlNullable f.Typ = true →
        typenull ct f = lit "sql.Null" ++ capitalize ct f.Typ)
    ∧ (∀ f : Field, HasPrefix f.Typ (lit "[]") = false → isSqlNullable f.Typ = false →
        typenull ct f = lit "*" ++ f.Typ)
    ∧ (∀ f : Field, HasPrefix f.Typ (lit "[]") = false → typenull ct f ≠ f.Typ) := by
  refine ⟨rfl, ?_, fun _ => rfl, ?_, ?_, ?_, typenull_ne_bare ct⟩
  · intro t
    have hc := tplColumnsLoop_eq ct t.Fields 0
    have hv := tplValuesLoop_eq ct t.Fields 0
    simp only [Nat.zero_add] at hc hv
    simp only [tplInsertEntry, tplColumns, tplValues, hc, hv]
  · intro f h; simp [typenull, h]
  · intro f h hq; simp [typenull, h, hq]
  · intro f h hq; simp [typenull, h, hq]

/-- C17 witness: the table `t` with an `int64`, a `[]uint8` and a `time.Time` column. -/
theorem C17_default_template_witness :
    tplInsertEntry (fun r => r) exRaw
        = lit "  \"t\": \"INSERT INTO t (Id,Data,At) VALUES (:Id,:Data,:At)\",\n"
      ∧ tplStructDecl (fun r => r) exRaw
        = lit "\ntype t struct \x7b\n  Id sql.NullInt64\n  Data []uint8\n  At *time.Time\n\x7d\n"
      ∧ typenull (fun r => r) (exField "id" "" "int64") ≠ lit "int64"
      ∧ typenull (fun r => r) (exField "data" "" "[]uint8") = lit "[]uint8" :=
  have h := C17_default_template (fun r => r) (lit "model") [lit "dbtogo", lit "\"mysql\""]
    [exRaw]
  ⟨(h.2.1 exRaw).trans (by decide), (h.2.2.1 exRaw).trans (by decide),
    h.2.2.2.2.2.2 (exField "id" "" "int64") (by decide),
    h.2.2.2.1 (exField "data" "" "[]uint8") (by decide)⟩

set_option maxRecDepth 100000 in
/-- On the table `t` the text of the default template holds `InsertStmts` and nowhere
`SelectStmts`. -/
theorem renderDefault_example_maps :
    lit "InsertStmts" <:+: renderDefault (fun r => r) (lit "model") [lit "dbtogo"] [exRaw]
      ∧ ¬ (lit "SelectStmts" <:+:
          renderDefault (fun r => r) (lit "model") [lit "dbtogo"] [exRaw]) := by
  decide

/-! ## C18: the template helpers and `Create` agree -/

theorem typeExpr_null (ct : Nat → Nat) (f : Field) :
    typeExpr ct (lit "null") f.Typ = typenull ct f := by
  unfold typeExpr typenull
  cases hp : HasPrefix f.Typ (lit "[]") <;> simp [hp]

theorem typeExpr_pointer (ct : Nat → Nat) (f : Field) :
    typeExpr ct (lit "pointer") f.Typ = typepointer f := by
  have hnp : lit "pointer" ≠ lit "null" := by decide
  unfold typeExpr typepointer
  cases hp : HasPrefix f.Typ (lit "[]") <;> simp [hnp, hp]

/-- C18: for every field `f`, the declaration line `Create` appends under the null policy
carries `typenull f`, and the line it appends under the pointer policy carries
`typepointer f`. -/
theorem C18_helpers_agree (ct : Nat → Nat) (sq : Bool) (st : FieldLoop) (f : Field) :
    (fieldStep ct ⟨lit "null", sq⟩ st f).map (fun r => r.md.StructCode)
        = some (st.md.StructCode ++
            [f.CleanName ++ (lit " " ++ (typenull ct f ++
              (fieldTag ⟨lit "null", sq⟩ f ++ lit ";")))])
    ∧ (fieldStep ct ⟨lit "pointer", sq⟩ st f).map (fun r => r.md.StructCode)
        = some (st.md.StructCode ++
            [f.CleanName ++ (lit " " ++ (typepointer f ++
              (fieldTag ⟨lit "pointer", sq⟩ f ++ lit ";")))])
    ∧ (mapType ct (lit "null") st.md.Imports f.Typ).map Prod.fst = some (typenull ct f)
    ∧ (mapType ct (lit "pointer") st.md.Imports f.Typ).map Prod.fst = some (typepointer f) := by
  refine ⟨?_, ?_, ?_, ?_⟩
  · rw [fieldStep_code, typeExpr_null]
  · rw [fieldStep_code, typeExpr_pointer]
  · rw [mapType_eq, ← typeExpr_null]; rfl
  · rw [mapType_eq, ← typeExpr_pointer]; rfl

/-! ## C19: `Output` indexes `Structs` in range -/

theorem writeStmts_map (f : Struct → GoString) (ss pre : List Struct) :
    writeStmts (pre ++ ss) (ss.map f) pre.length
      = some ((ss.map (fun s =>
          lit "\"" ++ (s.CleanName ++ (lit "\": " ++ (f s ++ lit ",\n"))))).flatten) := by
  induction ss generalizing pre with
  | nil => rfl
  | cons s rest ih =>
    have hidx : (pre ++ s :: rest)[pre.length]? = some s := by
      rw [List.getElem?_append_right (Nat.le_refl _)]
      simp
    have hrec := ih (pre ++ [s])
    simp only [List.append_assoc, List.singleton_append, List.length_append,
      List.length_singleton] at hrec
    simp only [List.map_cons, writeStmts, hidx, hrec, List.flatten_cons]
    rfl

/-- C19: on a `Metadata` with empty statement lists whose tables all have at least one field,
`Create` returns with as many INSERT entries and as many SELECT entries as there are tables;
`Output` on the result does not panic at `md.Structs[n]`, whatever the order of the import
lines, and the two loops write, for each table in order, the line
`"<CleanName>": <statement of that table>,`. -/
theorem C19_output_in_range (ct : Nat → Nat) (o : Options) (md : Metadata)
    (hI : md.InsertStmts = []) (hS : md.SelectStmts = [])
    (h : ∀ s ∈ md.Structs, s.Fields ≠ []) :
    ∃ md', Create ct o md = some md'
      ∧ md'.InsertStmts.length = md'.Structs.length
      ∧ md'.SelectStmts.length = md'.Structs.length
      ∧ md'.Structs = md.Structs
      ∧ writeStmts md'.Structs md'.InsertStmts 0
          = some ((md.Structs.map (fun s =>
              lit "\"" ++ (s.CleanName ++ (lit "\": " ++ (insertStmt s ++ lit ",\n"))))).flatten)
      ∧ writeStmts md'.Structs md'.SelectStmts 0
          = some ((md.Structs.map (fun s =>
              lit "\"" ++ (s.CleanName ++ (lit "\": " ++ (selectStmt s ++ lit ",\n"))))).flatten)
      ∧ (∀ order, (Output md' order).isSome = true) := by
  have hi := writeStmts_map insertStmt md.Structs []
  have hs := writeStmts_map selectStmt md.Structs []
  simp only [List.nil_append, List.length_nil] at hi hs
  refine ⟨_, Create_eq ct o md h, ?_, ?_, rfl, ?_, ?_, ?_⟩
  · simp [hI]
  · simp [hS]
  · simp only [hI, List.nil_append]; exact hi
  · simp only [hS, List.nil_append]; exact hs
  · intro order
    unfold Output
    simp only [hI, hS, List.nil_append, hi, hs]
    rfl

/-- C19 witness: two tables, two entries in each map, written under their own names. -/
theorem C19_output_in_range_witness :
    ∃ md', Create (fun r => r) optBare (exMd [exUsers, exEvent]) = some md'
      ∧ md'.InsertStmts.length = 2 ∧ md'.SelectStmts.length = 2
      ∧ writeStmts md'.Structs md'.SelectStmts 0
          = some (lit "\"T\": \"SELECT Id,Name,Email FROM T\",\n\"Event\": \"SELECT Created FROM Event\",\n") :=
  match C19_output_in_range (fun r => r) optBare (exMd [exUsers, exEvent]) rfl rfl
    (by decide) with
  | ⟨md', hc, hi, hs, hst, _, hw, _⟩ =>
    ⟨md', hc, hi.trans (by rw [hst]; rfl), hs.trans (by rw [hst]; rfl), hw.trans (by decide)⟩

/-! ## C20: the import set by policy -/

theorem importsStep_not_null (types : GoString) (imports : ImportSet) (typ : GoString)
    (h : types ≠ lit "null") : importsStep types imports typ = imports := by
  simp [importsStep, h]

theorem importsOf_not_null (o : Options) (init : ImportSet) (ss : List Struct)
    (h : o.types ≠ lit "null") : importsOf o init ss = init := by
  unfold importsOf
  induction ss generalizing init with
  | nil => rfl
  | cons s rest ih =>
    rw [List.foldl_cons]
    have hf : ∀ (fs : List Field) (a : ImportSet),
        fs.foldl (fun a f => importsStep o.types a f.Typ) a = a := by
      intro fs
      induction fs with
      | nil => intro a; rfl
      | cons f fs ihf => intro a; rw [List.foldl_cons, importsStep_not_null _ _ _ h, ihf]
    rw [hf, ih]

theorem mem_store (m : ImportSet) (k x : GoString) (h : k ∈ m) : k ∈ m.store x := by
  unfold ImportSet.store
  split_ifs
  · exact h
  · exact List.mem_append_left _ h

theorem mem_importsStep (types : GoString) (m : ImportSet) (typ k : GoString) (h : k ∈ m) :
    k ∈ importsStep types m typ := by
  unfold importsStep
  split_ifs
  · exact mem_store _ _ _ h
  · exact h

theorem mem_importsOf (o : Options) (init : ImportSet) (ss : List Struct) (k : GoString)
    (h : k ∈ init) : k ∈ importsOf o init ss := by
  unfold importsOf
  induction ss generalizing init with
  | nil => exact h
  | cons s rest ih =>
    rw [List.foldl_cons]
    apply ih
    have hf : ∀ (fs : List Field) (a : ImportSet), k ∈ a →
        k ∈ fs.foldl (fun a f => importsStep o.types a f.Typ) a := by
      intro fs
      induction fs with
      | nil => intro a ha; exact ha
      | cons f fs ihf =>
        intro a ha
        rw [List.foldl_cons]
        exact ihf _ (mem_importsStep _ _ _ _ ha)
    exact hf _ _ h

/-- C20: whenever `Create` returns, the import set is empty if the policy is not `null`
(`bare`, `pointer` or any other value of `types`), whatever the field types are, and holds
`database/sql` if the policy is `null`, whatever the field types are. -/
theorem C20_imports_by_policy (ct : Nat → Nat) (o : Options) (md md' : Metadata)
    (h : Create ct o md = some md') :
    (o.types ≠ lit "null" → md'.Imports = [])
      ∧ (o.types = lit "null" → lit "database/sql" ∈ md'.Imports) := by
  obtain ⟨_, e⟩ := Create_some ct o md md' h
  subst e
  constructor
  · intro hn
    show importsOf o (importsInit o) md.Structs = []
    rw [importsOf_not_null o _ _ hn]
    simp [importsInit, hn]
  · intro hn
    show lit "database/sql" ∈ importsOf o (importsInit o) md.Structs
    apply mem_importsOf
    simp [importsInit, hn]

/-- C20 witness: a `time.Time` column under `bare` and `pointer` registers nothing, and a
`[]uint8` column under `null` still leaves `database/sql`. -/
theorem C20_imports_by_policy_witness :
    (Create (fun r => r) optBare (exMd [exEvent])).map (fun m => m.Imports) = some []
      ∧ (Create (fun r => r) optPointer (exMd [exEvent])).map (fun m => m.Imports) = some []
      ∧ (Create (fun r => r) optPointer (exMd [exEvent])).map (fun m => m.StructCode.take 2)
          = some [lit "type Event struct \x7b", lit "Created *time.Time;"]
      ∧ (Create (fun r => r) optNull (exMd [exBlob])).map (fun m => m.Imports)
          = some [lit "database/sql"] :=
  ⟨match h : Create (fun r => r) optBare (exMd [exEvent]) with
    | some md' => by
      rw [Option.map_some']
      exact congrArg some
        ((C20_imports_by_policy (fun r => r) optBare _ md' h).1 (by decide))
    | none => absurd h (by decide),
   by decide, by decide, by decide⟩

end Dbtogo
